import Mathlib

set_option maxRecDepth 100000

/-!
Verification of the multi-stage reasoning pipeline engine ("Fat-Cat").

The development shallowly embeds the string-processing core of the engine:
the anchor file store (`workflow/finish_form_utils.py`), the memory-bridge
readers (`Memory_system/memory_bridge.py`), the Watcher plan revision
(`Watcher_Agent/Watcher_agent.py`), the Stage-4 tool loop
(`stage4_agent/Executor_agent.py`), the `web_search` tool
(`stage4_agent/tools_bridge.py`), the code sandbox dispatcher
(`stage4_agent/sandboxed_code_interpreter.py`) and the strategy upgrade
agent (`stage2_capability_upgrade_agent/stage2_capability_upgrade_agent.py`).

Documents and texts are modelled as `List Char`; external collaborators
(the LLM, network providers, subprocesses, JSON serialization) are
abstracted as oracle parameters, exactly at the points where the Python
code calls out of the embedded module.
-/

/-- Texts and documents are lists of characters (Python `str`). -/
abbrev Str := List Char

/-- Boolean prefix test on character lists. -/
def pfx : Str → Str → Bool
  | [], _ => true
  | _ :: _, [] => false
  | a :: p, b :: s => a = b && pfx p s

/-- Python whitespace (`str.strip` / regex `\s`): space, tab, LF, CR, VT, FF. -/
def isPySpace (c : Char) : Bool :=
  c = ' ' || c = '\t' || c = '\n' || c = '\r' || c = Char.ofNat 11 || c = Char.ofNat 12

/-- Python `str.lstrip()`. -/
def lstrip (s : Str) : Str := s.dropWhile isPySpace

/-- Python `str.rstrip()`. -/
def rstrip (s : Str) : Str := (s.reverse.dropWhile isPySpace).reverse

/-- Python `str.strip()`. -/
def pystrip (s : Str) : Str := rstrip (lstrip s)

/-- Python `str.rstrip("\n")`. -/
def rstripNL (s : Str) : Str := (s.reverse.dropWhile (fun c => c = '\n')).reverse

/-- Python `str.lstrip("\n")`. -/
def lstripNL (s : Str) : Str := s.dropWhile (fun c => c = '\n')

/-- Python `text.replace("\r\n", "\n")`: left-to-right, non-overlapping. -/
def replaceCRLF : Str → Str
  | [] => []
  | [c] => [c]
  | c :: d :: rest =>
    if c = '\r' ∧ d = '\n' then '\n' :: replaceCRLF rest
    else c :: replaceCRLF (d :: rest)

/-- Re-encode an LF-only text with CRLF line endings. -/
def lfToCrlf : Str → Str
  | [] => []
  | c :: rest => if c = '\n' then '\r' :: '\n' :: lfToCrlf rest else c :: lfToCrlf rest

/-- There is an occurrence of `p` in `s` starting at index `i`. -/
def occB (p s : Str) (i : Nat) : Bool := pfx p (s.drop i)

/-- Index of the first occurrence of `p` in `s` (Python `str.find` /
leftmost regex match of an escaped literal). -/
def firstIdx (p : Str) : Str → Option Nat
  | [] => if pfx p [] then some 0 else none
  | c :: t => if pfx p (c :: t) then some 0 else (firstIdx p t).map (· + 1)

/-- All occurrence indices of `p` in `s`, in increasing order. -/
def positions (p s : Str) : List Nat :=
  (List.range (s.length + 1)).filter (fun i => occB p s i)

/-- `p` occurs in `s` exactly once, at index `i` (decidable). -/
def uniqueAt (p s : Str) (i : Nat) : Prop := positions p s = [i]

instance (p s : Str) (i : Nat) : Decidable (uniqueAt p s i) := by
  unfold uniqueAt
  infer_instance

/-- Python `p in s` substring test. -/
def containsSub (p s : Str) : Bool := (firstIdx p s).isSome

/-- Python `s.split(sep, 1)` as a pair (text before / text after the first
occurrence of `sep`); when `sep` does not occur, `(s, [])`. -/
def splitFirst (sep s : Str) : Str × Str :=
  match firstIdx sep s with
  | none => (s, [])
  | some i => (s.take i, s.drop (i + sep.length))

/-- Fuel-driven worker for `splitOnSub`; the fuel is initialized to more
than the number of possible splits, so it never runs out. -/
def splitOnSubAux (sep : Str) : Nat → Str → List Str
  | 0, rest => [rest]
  | fuel + 1, rest =>
    match firstIdx sep rest with
    | none => [rest]
    | some i => rest.take i :: splitOnSubAux sep fuel (rest.drop (i + sep.length))

/-- Python `s.split(sep)` for a non-empty separator. -/
def splitOnSub (sep s : Str) : List Str := splitOnSubAux sep (s.length + 1) s

/-- Python `str.splitlines()` for `\n`-separated text (no trailing empty
part when the text ends with a newline). -/
def splitLines (s : Str) : List Str :=
  if s = [] then []
  else
    let parts := splitOnSub ['\n'] s
    if s.getLast? = some '\n' then parts.dropLast else parts

/-- Python `sep.join(xs)`. -/
def joinSep (sep : Str) : List Str → Str
  | [] => []
  | [x] => x
  | x :: y :: rest => x ++ sep ++ joinSep sep (y :: rest)

/-- Decimal rendering of a natural number (for f-string interpolation). -/
def natStr (n : Nat) : Str := (Nat.repr n).data

/-- ASCII single quote, kept out of string literals. -/
def squote : Char := Char.ofNat 39

/-! ## Anchor file store (`workflow/finish_form_utils.py`) -/

/-- `DEFAULT_PLACEHOLDER` from `finish_form_utils.py`. -/
def DEFAULT_PLACEHOLDER : Str := "`待填写`".data

/-- `LIVE_PLAN_MARKER`. -/
def LIVE_PLAN_MARKER : Str := "LIVE_EXECUTION_PLAN".data

/-- `f"<!-- {marker_name}_START -->"`. -/
def startMarker (name : Str) : Str := "<!-- ".data ++ name ++ "_START -->".data

/-- `f"<!-- {marker_name}_END -->"`. -/
def endMarker (name : Str) : Str := "<!-- ".data ++ name ++ "_END -->".data

/-- `_sanitize_content`: trimmed content, or the placeholder when empty. -/
def sanitizeContent (content placeholder : Str) : Str :=
  let stripped := pystrip content
  if stripped = [] then placeholder else stripped

/-- `read_form_section` on an existing document: normalize CRLF, then take
the (trimmed) text between the first start marker and the first end marker
after it.  This matches the leftmost non-greedy match of the pattern
`start\s*(.*?)\s*end` (DOTALL) followed by `.strip()`: if no end marker
follows the first start marker then none follows any later one either, so
the regex fails to match at all. -/
def readFormSection (doc name : Str) : Option Str :=
  let text := replaceCRLF doc
  match firstIdx (startMarker name) text with
  | none => none
  | some i =>
    let afterStart := text.drop (i + (startMarker name).length)
    match firstIdx (endMarker name) afterStart with
    | none => none
    | some k => some (pystrip (afterStart.take k))

/-- `read_live_plan`. -/
def readLivePlan (doc : Str) : Option Str := readFormSection doc LIVE_PLAN_MARKER

/-- Locate the region replaced by `pattern.subn` for the non-greedy DOTALL
pattern `start.*?end`: the first start-marker occurrence together with the
index just past it of the first end marker.  The returned pair is
(start index of the match, start index of the end marker). -/
def findPair (s e doc : Str) : Option (Nat × Nat) :=
  match firstIdx s doc with
  | none => none
  | some i =>
    match firstIdx e (doc.drop (i + s.length)) with
    | none => none
    | some k => some (i, i + s.length + k)

/-- `update_form_section` on an existing document (the whole new document
text that is written back).  The final `new_text.replace("\n", "\n")` in
the source is the identity and is omitted. -/
def updateFormSection (doc name content : Str) (header : Option Str) : Str :=
  let text := replaceCRLF doc
  let sanitized := sanitizeContent content DEFAULT_PLACEHOLDER
  let sM := startMarker name
  let eM := endMarker name
  let block := sM ++ ['\n'] ++ sanitized ++ ['\n'] ++ eM
  match findPair sM eM text with
  | some (i, j) => text.take i ++ block ++ text.drop (j + eM.length)
  | none =>
    match header with
    | some h =>
      match firstIdx h text with
      | some hi =>
        let hEnd := hi + h.length
        let insertPos :=
          match firstIdx ['\n'] (text.drop hEnd) with
          | none => hEnd
          | some k => hEnd + k + 1
        rstripNL (text.take insertPos) ++ "\n\n".data ++ block ++ ['\n']
          ++ lstripNL (text.drop insertPos)
      | none => rstripNL text ++ "\n\n".data ++ block ++ ['\n']
    | none => rstripNL text ++ "\n\n".data ++ block ++ ['\n']

/-- `update_live_plan`. -/
def updateLivePlan (doc content : Str) : Str :=
  updateFormSection doc LIVE_PLAN_MARKER content (some "## Live Execution Plan".data)

/-- `ensure_markers` on an existing document: append a placeholder block
for each missing marker pair.  The tracked `updated` flag only suppresses
a rewrite of identical content, so the resulting document text is the
fold below. -/
def ensureMarkers (doc : Str) (pairs : List (Str × Str)) : Str :=
  pairs.foldl
    (fun text pr =>
      let sM := startMarker pr.1
      let eM := endMarker pr.1
      if containsSub sM text && containsSub eM text then text
      else
        rstripNL text ++ "\n\n".data
          ++ (sM ++ ['\n'] ++ (if pr.2 = [] then DEFAULT_PLACEHOLDER else pr.2) ++ ['\n'] ++ eM)
          ++ ['\n'])
    (replaceCRLF doc)

/-- The file system at one path: `none` when the file does not exist. -/
abbrev FileState := Option Str

/-- `ensure_markers` including its existence check: a missing file is left
missing (early `return`, nothing written). -/
def ensureMarkersFS (fs : FileState) (pairs : List (Str × Str)) : FileState :=
  match fs with
  | none => none
  | some doc => some (ensureMarkers doc pairs)

/-- `update_form_section` including its existence check: a missing file
raises `FileNotFoundError(f"finish_form document not found: {target}")`. -/
def updateFormSectionFS (fs : FileState) (path name content : Str) (header : Option Str) :
    Except Str Str :=
  match fs with
  | none => Except.error ("finish_form document not found: ".data ++ path)
  | some doc => Except.ok (updateFormSection doc name content header)

/-! ## Memory bridge readers (`Memory_system/memory_bridge.py`) -/

/-- `MemoryBridge.load_stage_output` on an existing document: plain
`str.find` of both markers over the raw (un-normalized) text, then the
stripped slice strictly between them; missing markers (or an end marker
before the start marker, giving an empty Python slice) yield `""`. -/
def loadStageOutput (doc marker : Str) : Str :=
  let startM := startMarker marker
  let endM := endMarker marker
  match firstIdx startM doc, firstIdx endM doc with
  | some i, some j => pystrip ((doc.take j).drop (i + startM.length))
  | _, _ => []

/-! ## Watcher agent (`Watcher_Agent/Watcher_agent.py`) -/

/-- `WatcherAgent._extract_revised_plan`: leftmost match of the non-greedy
DOTALL pattern ```` ```plan\s*(.*?)\s*``` ````, i.e. the trimmed text
between the first ```` ```plan ```` and the first ```` ``` ```` after it
(as for `readFormSection`, if no closing fence follows the first opening
fence, none follows a later one either); a `NO_CHANGE` body yields `none`. -/
def extractRevisedPlan (responseText : Str) : Option Str :=
  match firstIdx ("```plan".data) responseText with
  | none => none
  | some i =>
    let after := responseText.drop (i + ("```plan".data).length)
    match firstIdx ("```".data) after with
    | none => none
    | some k =>
      let content := pystrip (after.take k)
      if content = "NO_CHANGE".data then none else some content

/-- The content written by `WatcherAgent._write_audit_log`. -/
def auditMessage (toolName auditText : Str) : Str :=
  "Last revision for tool: ".data ++ toolName ++ "\n\n".data ++ auditText

/-- `WatcherAgent._write_audit_log`. -/
def writeAuditLog (doc toolName auditText : Str) : Str :=
  updateFormSection doc ("WATCHER_AUDIT".data) (auditMessage toolName auditText)
    (some "## Watcher Audit Report".data)

/-- `WatcherAgent.revise_plan`, with the LLM reply abstracted as the
`responseText` parameter (the model is only consulted after the non-empty
current-plan gate).  Returns the revision flag and the document state. -/
def revisePlan (doc toolName responseText : Str) : Bool × Str :=
  let currentPlan := (readLivePlan doc).getD []
  if pystrip currentPlan = [] then (false, doc)
  else
    match extractRevisedPlan responseText with
    | none => (false, doc)
    | some revised =>
      if revised ≠ [] ∧ pystrip revised ≠ pystrip currentPlan then
        let doc1 := updateLivePlan doc revised
        let doc2 := writeAuditLog doc1 toolName responseText
        (true, doc2)
      else (false, doc)

/-! ## Stage-4 executor (`stage4_agent/Executor_agent.py`) -/

/-- `ToolResult` from `stage4_agent/tools_bridge.py`. -/
structure ToolResultL where
  success : Bool
  output : Str
  error : Option Str
deriving DecidableEq, Repr

/-- A parsed `[TOOL_CALL]` block: tool name plus raw key/value argument
pairs.  The Python parser additionally runs `json.loads` on argument
values (keeping the raw string on failure); JSON decoding is external to
the embedded module, so values are kept as raw text here. -/
structure ToolCallP where
  tool : Str
  args : List (Str × Str)
deriving DecidableEq, Repr

/-- `TOP_LEVEL_KEYS` from `_parse_tool_calls`. -/
def TOP_LEVEL_KEYS : List Str :=
  ["tool".data, "query".data, "url".data, "format".data, "expression".data,
   "max_results".data, "provider".data, "fallback_queries".data, "min_results".data]

/-- ASCII model of Python `str.isidentifier()`. -/
def isPyIdentifier (s : Str) : Bool :=
  match s with
  | [] => false
  | c :: rest => (c.isAlpha || c = '_') && rest.all (fun d => d.isAlphanum || d = '_')

/-- `line.startswith((' ', '\t'))`. -/
def startsWithSpaceTab (s : Str) : Bool :=
  match s with
  | [] => false
  | c :: _ => c = ' ' || c = '\t'

/-- Longest common prefix of two character lists. -/
def commonPrefixL : Str → Str → Str
  | a :: as, b :: bs => if a = b then a :: commonPrefixL as bs else []
  | _, _ => []

/-- `textwrap.dedent`: remove the longest common leading-whitespace margin
of the non-blank lines from every line that starts with it. -/
def dedent (t : Str) : Str :=
  let ls := splitOnSub ['\n'] t
  let indents := (ls.filter (fun l => pystrip l ≠ [])).map (fun l => l.takeWhile isPySpace)
  let margin := match indents with
    | [] => []
    | i :: is => is.foldl commonPrefixL i
  joinSep ['\n'] (ls.map (fun l => if pfx margin l then l.drop margin.length else l))

/-- Minimal model of `json.loads` applied to a candidate JSON string
literal (the only case `_parse_tool_calls` distinguishes for `code:`): a
plainly quoted string is unwrapped, anything else is kept raw. -/
def jsonStrUnwrap (val : Str) : Str :=
  match val with
  | '"' :: rest =>
    if rest ≠ [] ∧ rest.getLast? = some '"'
        ∧ (rest.dropLast.all (fun c => c ≠ '"' ∧ c ≠ '\\')) then
      rest.dropLast
    else val
  | _ => val

/-- The inner `while` of `_parse_tool_calls` that collects a multi-line
`code:` value; returns the collected lines and the unconsumed lines. -/
def collectCodeLines : List Str → List Str → (List Str × List Str)
  | [], acc => (acc, [])
  | nextLine :: rest, acc =>
    let ns := pystrip nextLine
    if ns = [] then collectCodeLines rest (acc ++ [[]])
    else if containsSub [':'] ns then
      let potentialKey := pystrip (splitFirst [':'] ns).1
      if TOP_LEVEL_KEYS.contains potentialKey then (acc, nextLine :: rest)
      else if ¬ startsWithSpaceTab nextLine ∧ isPyIdentifier potentialKey then
        (acc, nextLine :: rest)
      else collectCodeLines rest (acc ++ [rstrip nextLine])
    else collectCodeLines rest (acc ++ [rstrip nextLine])

/-- The outer `while` of `_parse_tool_calls` over the body lines of one
segment, driven by fuel (the loop index only moves forward, so lines
suffice as fuel). -/
def parseCallLines : Nat → List Str → Str → List (Str × Str) → Str × List (Str × Str)
  | 0, _, toolName, args => (toolName, args)
  | _, [], toolName, args => (toolName, args)
  | fuel + 1, line :: rest, toolName, args =>
    let stripped := pystrip line
    if stripped = [] ∨ ¬ containsSub [':'] stripped then
      parseCallLines fuel rest toolName args
    else
      let kv := splitFirst [':'] stripped
      let key := pystrip kv.1
      let val := pystrip kv.2
      if key = "tool".data then parseCallLines fuel rest val args
      else if key = "code".data then
        let initLines : List Str := if val ≠ [] then [jsonStrUnwrap val] else []
        let collected := collectCodeLines rest initLines
        let rawCode := joinSep ['\n'] collected.1
        parseCallLines fuel collected.2 toolName
          (args ++ [("code".data, pystrip (dedent rawCode))])
      else parseCallLines fuel rest toolName (args ++ [(key, val)])

/-- `Stage4ExecutorAgent._parse_tool_calls`. -/
def parseToolCalls (text : Str) : List ToolCallP :=
  let segments := splitOnSub ("[TOOL_CALL]".data) text
  (segments.drop 1).foldl
    (fun calls segment =>
      if ¬ containsSub ("[/TOOL_CALL]".data) segment then calls
      else
        let body := pystrip (splitFirst ("[/TOOL_CALL]".data) segment).1
        let lines := splitLines body
        let parsed := parseCallLines (lines.length + 1) lines [] []
        if parsed.1 ≠ [] then calls ++ [⟨parsed.1, parsed.2⟩] else calls)
    []

/-- A chat message (role, content). -/
structure Msg where
  role : Str
  content : Str
deriving DecidableEq, Repr

/-- `_build_iteration_prompt`. -/
def buildIterationPrompt (livePlan : Str) (iteration : Nat) : Str :=
  "# Current Live Plan (Iteration ".data ++ natStr iteration ++ ")\n\nRead the plan below and execute the next pending step.\n\n```plan\n".data
    ++ livePlan
    ++ "\n```\n\nExecute the next step by outputting a [TOOL_CALL] block, or output Final Answer if done.".data

/-- `_format_tool_result`. -/
def formatToolResult (call : ToolCallP) (result : ToolResultL) : Str :=
  joinSep ['\n']
    (["[TOOL_RESULT]".data, "tool: ".data ++ call.tool]
      ++ (if result.output ≠ [] then ["output: ".data ++ result.output] else [])
      ++ (match result.error with
          | some e => if e ≠ [] then ["error: ".data ++ e] else []
          | none => []))

/-- The forced-finalization user message. -/
def forcedFinalizationMsg : Str :=
  "[FINAL_ANSWER_REQUIRED] Output your Final Answer now. No more tool calls.".data

/-- The external collaborators of the Stage-4 loop: the LLM (`self._model`
plus stream collation), the tool bridge (`tools_bridge.call_tool`), the
pretty-printed `json.dumps` of tool args, the optional orchestrator
(`register_tool_call`, a separate module) and the optional watcher (which
rewrites the document and reports whether it revised the plan). -/
structure LoopEnv where
  model : List Msg → Str
  callTool : Str → List (Str × Str) → ToolResultL
  dumpArgs : List (Str × Str) → Str
  orchestrator : Option (Str → Nat → ToolCallP → ToolResultL → Str)
  watcher : Option (Str → Str → List (Str × Str) → Str → Option Str → Bool × Str)

/-- `Stage4ExecutorAgent._append_tool_log` (the non-orchestrator branch). -/
def appendToolLog (env : LoopEnv) (doc : Str) (iteration : Nat) (call : ToolCallP)
    (result : ToolResultL) : Str :=
  let existing0 := (readFormSection doc ("STAGE4_TOOL_CALLS".data)).getD []
  let existing := if existing0 = DEFAULT_PLACEHOLDER then [] else existing0
  let entry :=
    "### Iteration ".data ++ natStr iteration ++ " | Tool: ".data ++ call.tool
      ++ "\n**Args:**\n```json\n".data ++ env.dumpArgs call.args
      ++ "\n```\n**Output:** ".data
      ++ (if result.output = [] then "(none)".data else result.output)
      ++ "\n**Error:** ".data
      ++ (match result.error with
          | some e => if e = [] then "(none)".data else e
          | none => "(none)".data)
  let newContent :=
    if pystrip existing ≠ [] then pystrip existing ++ ['\n'] ++ pystrip entry
    else pystrip entry
  updateFormSection doc ("STAGE4_TOOL_CALLS".data) newContent
    (some "### 1. Execution Log".data)

/-- The per-call body of the Stage-4 loop (`for call in tool_calls`):
dispatch the tool, append the `[TOOL_RESULT]` message, record the call in
the document, and let the watcher revise the plan. -/
def processCalls (env : LoopEnv) (iteration : Nat) :
    List ToolCallP → List Msg → Str → List Msg × Str
  | [], msgs, doc => (msgs, doc)
  | call :: rest, msgs, doc =>
    let result := env.callTool call.tool call.args
    let msgs := msgs ++ [⟨"user".data, formatToolResult call result⟩]
    let doc := match env.orchestrator with
      | some reg => reg doc iteration call result
      | none => appendToolLog env doc iteration call result
    let doc := match env.watcher with
      | some w => (w doc call.tool call.args result.output result.error).2
      | none => doc
    processCalls env iteration rest msgs doc

/-- The `while iteration < self._max_iterations` loop of
`_run_live_document_loop`; the fuel is the number of remaining iterations. -/
def loopIter (env : LoopEnv) :
    Nat → Nat → List Msg → Str → Str → List Msg × Str × Str
  | 0, _, msgs, doc, lastResponse => (msgs, doc, lastResponse)
  | fuel + 1, iteration, msgs, doc, _ =>
    let iteration := iteration + 1
    let livePlan := (readLivePlan doc).getD []
    let msgs := msgs ++ [⟨"user".data, buildIterationPrompt livePlan iteration⟩]
    let responseText := env.model msgs
    let msgs := msgs ++ [⟨"assistant".data, responseText⟩]
    let toolCalls := parseToolCalls responseText
    if toolCalls = [] then (msgs, doc, responseText)
    else
      let step := processCalls env iteration toolCalls msgs doc
      loopIter env fuel iteration step.1 step.2 responseText

/-- The outcome of `_run_live_document_loop`: the final response text, the
message transcript, and the document state. -/
structure LoopResult where
  finalText : Str
  messages : List Msg
  doc : Str
deriving Repr

/-- `Stage4ExecutorAgent._run_live_document_loop`. -/
def runLiveDocumentLoop (env : LoopEnv) (maxIterations : Nat) (messages : List Msg)
    (doc : Str) : LoopResult :=
  let ended := loopIter env maxIterations 0 messages doc []
  if parseToolCalls ended.2.2 ≠ [] then
    let msgs := ended.1 ++ [⟨"user".data, forcedFinalizationMsg⟩]
    let finalText := env.model msgs
    ⟨finalText, msgs, ended.2.1⟩
  else ⟨ended.2.2, ended.1, ended.2.1⟩

/-! ## `web_search` (`stage4_agent/tools_bridge.py`) -/

/-- The zero-results diagnostic emitted by `_search_tavily` when the API
responds successfully with empty content. -/
def zeroResultsMsg (query : Str) : Str :=
  "[Zero Results] Tavily API responded successfully but returned no results for query: ".data
    ++ [squote] ++ query ++ [squote]
    ++ "\nPossible reasons: query too specific, topic too niche, or no indexed content matches.\nSuggestions: try broader keywords, different phrasing, or alternative search terms.".data

/-- `_search_tavily` with the network call abstracted: `avail` is whether
the Tavily tool initialized (`TAVILY_API_KEY` present and import
succeeded), `rawContent` is the stringified, deduplicated API content
(the API exception path is part of the abstracted call). -/
def tavilySearchOutcome (avail : Bool) (rawContent query : Str) : ToolResultL :=
  if ¬ avail then
    ⟨false, [], some "Tavily not available. Check TAVILY_API_KEY.".data⟩
  else
    let contentStr := pystrip rawContent
    if contentStr = [] ∨ contentStr = "[]".data ∨ contentStr = "\x7b\x7d".data
        ∨ contentStr = "None".data ∨ contentStr = "null".data then
      ⟨true, zeroResultsMsg query, none⟩
    else ⟨true, contentStr, none⟩

/-- The `for idx, q in enumerate(queries, 1)` loop of `_do_search`: the
per-query provider call (tavily or firecrawl, chosen from environment
keys) is the oracle `providerRes`. -/
def doSearchLoop (providerRes : Str → ToolResultL) (minResults : Nat) :
    List Str → Nat → List Str → ToolResultL
  | [], _, attempts => ⟨true, joinSep "\n\n".data attempts, none⟩
  | q :: rest, idx, attempts =>
    let res := providerRes q
    if ¬ res.success then res
    else
      let nonEmptyLines := (splitLines res.output).filter (fun l => pystrip l ≠ [])
      let attempts := attempts
        ++ ["[Attempt ".data ++ natStr idx ++ "] query: ".data ++ q ++ ['\n'] ++ res.output]
      if max minResults 1 ≤ nonEmptyLines.length then
        ⟨true, joinSep "\n\n".data attempts, none⟩
      else doSearchLoop providerRes minResults rest (idx + 1) attempts

/-- `web_search`'s `_do_search` over the query plus its fallback queries. -/
def doSearch (providerRes : Str → ToolResultL) (query : Str) (fallbackQueries : List Str)
    (minResults : Nat) : ToolResultL :=
  doSearchLoop providerRes minResults (query :: fallbackQueries) 1 []

/-! ## Code sandbox (`stage4_agent/sandboxed_code_interpreter.py`) -/

/-- The result dict of `CodeSandbox.execute`. -/
structure SandboxOutcome where
  success : Bool
  output : Str
  error : Str
  method : Str
deriving DecidableEq, Repr

/-- The `NameError` raised when `CodeSandbox.execute` builds its result
dict: the module never imports `datetime`, so evaluating
`datetime.datetime.now().isoformat()` raises. -/
def nameDatetimeError : Str :=
  "NameError: name ".data ++ [squote] ++ "datetime".data ++ [squote]
    ++ " is not defined".data

/-- `CodeSandbox.execute`.  The three helpers it calls —
`_validate_and_sanitize_code`, `execute_with_restrictedpython`,
`execute_with_subprocess` — are total functions returning
`(bool, str, str)` triples; they are abstracted as oracle parameters here
(the validator's regex denylist and the subprocess are not needed by any
claim).  Every branch that reaches the final result-dict literal raises
`NameError` on the unbound name `datetime`; only the early `return` of the
"high"-level validation failure produces a dict. -/
def sandboxExecute (validate runRestricted runSubproc : Str → Bool × Str × Str)
    (code isolationLevel : Str) : Except Str SandboxOutcome :=
  if isolationLevel = "low".data then
    let _ := runRestricted code
    Except.error nameDatetimeError
  else if isolationLevel = "medium".data then
    let _ := runSubproc code
    Except.error nameDatetimeError
  else
    let v := validate code
    if ¬ v.1 then
      Except.ok ⟨false, [], "代码验证失败: ".data ++ v.2.2, "validation".data⟩
    else
      let _ := runSubproc code
      Except.error nameDatetimeError

/-! ## Strategy upgrade agent
(`stage2_capability_upgrade_agent/stage2_capability_upgrade_agent.py`) -/

/-- Case-insensitive prefix test (regex `re.IGNORECASE` on a literal). -/
def lowerEqPfx : Str → Str → Bool
  | [], _ => true
  | _ :: _, [] => false
  | a :: p, b :: s => a.toLower = b.toLower && lowerEqPfx p s

/-- ASCII model of regex `\w`. -/
def isWordChar (c : Char) : Bool := c.isAlphanum || c = '_'

/-- Characters of a strategy id: `[A-Z0-9\-]`. -/
def idChar (c : Char) : Bool := c.isUpper || c.isDigit || c = '-'

/-- Try, at a line start, the ordered key alternatives of one metadata
header pattern `^KEY:\s*(cls+)`; `single` is for the one-character
`^CATEGORY:\s*([A-Z])` capture. -/
def tryHeaderKeysAt (keys : List Str) (cls : Char → Bool) (single : Bool) (s : Str) :
    Option Str :=
  keys.findSome? (fun key =>
    if lowerEqPfx key s then
      let rest := (s.drop key.length).dropWhile isPySpace
      if single then
        match rest with
        | c :: _ => if cls c then some [c] else none
        | [] => none
      else
        let run := rest.takeWhile cls
        if run = [] then none else some run
    else none)

/-- Leftmost `re.search` of a `^KEY:\s*(cls+)` multiline header pattern:
try each line start in order. -/
def searchHeaderVal (keys : List Str) (cls : Char → Bool) (single : Bool) (text : Str) :
    Option Str :=
  go (text.length + 1) text
where
  go : Nat → Str → Option Str
  | 0, _ => none
  | _, [] => none
  | fuel + 1, s =>
    match tryHeaderKeysAt keys cls single s with
    | some v => some v
    | none =>
      match s.dropWhile (fun c => c ≠ '\n') with
      | [] => none
      | _ :: t => go fuel t

/-- Index of the last character of `rest` that is not a newline. -/
def lastNonNLIdx (rest : Str) : Option Nat :=
  (rest.reverse.findIdx? (fun c => c ≠ '\n')).map (fun k => rest.length - 1 - k)

/-- The `\s*(.+)$` part of a line-anchored pattern, applied to the text
`rest` following the colon: greedy `\s*` first, and on an all-whitespace
remainder the engine backtracks into a whitespace-only `(.+)` ending at a
line end.  Returns the stripped capture and the number of characters of
`rest` the match consumes. -/
def dotValAfterColon (rest : Str) : Option (Str × Nat) :=
  let skipped := (rest.takeWhile isPySpace).length
  let run := (rest.drop skipped).takeWhile (fun c => c ≠ '\n')
  if run ≠ [] then some (pystrip run, skipped + run.length)
  else
    match lastNonNLIdx rest with
    | some l => some ([], l + 1)
    | none => none

/-- Leftmost `re.search` of `^REASON:\s*(.+)$`-shaped patterns. -/
def searchDotVal (key : Str) (text : Str) : Option Str :=
  go (text.length + 1) text
where
  go : Nat → Str → Option Str
  | 0, _ => none
  | _, [] => none
  | fuel + 1, s =>
    (if lowerEqPfx key s then (dotValAfterColon (s.drop key.length)).map Prod.fst
     else none).orElse (fun _ =>
      match s.dropWhile (fun c => c ≠ '\n') with
      | [] => none
      | _ :: t => go fuel t)

/-- Update an association list in place (later justification matches
overwrite earlier ones, as in `justification[key] = value`). -/
def assocPut (l : List (Str × Str)) (k v : Str) : List (Str × Str) :=
  if l.any (fun p => p.1 = k) then l.map (fun p => if p.1 = k then (k, v) else p)
  else l ++ [(k, v)]

/-- Association lookup. -/
def assocGet (l : List (Str × Str)) (k : Str) : Option Str :=
  (l.find? (fun p => p.1 = k)).map Prod.snd

/-- The three justification keys, in canonical (stored) form. -/
def JUSTIFICATION_KEYS : List Str :=
  ["coverage_gap".data, "reuse_failure".data, "new_value".data]

/-- Try the `_JUSTIFICATION_ENTRY` alternatives at a line start:
`^(coverage_gap|reuse_failure|new_value)\s*:\s*(.+)$`.  Returns the
canonical key, the stripped value, and the consumed length. -/
def tryJustAt (s : Str) : Option (Str × Str × Nat) :=
  JUSTIFICATION_KEYS.findSome? (fun key =>
    if lowerEqPfx key s then
      let afterKey := s.drop key.length
      let ws := (afterKey.takeWhile isPySpace).length
      match afterKey.drop ws with
      | ':' :: rest =>
        (dotValAfterColon rest).map (fun p =>
          (key, p.1, key.length + ws + 1 + p.2))
      | _ => none
    else none)

/-- `finditer` of `_JUSTIFICATION_ENTRY`: scan positions left to right
(anchored matches only fire at line starts), jumping past each match. -/
def scanJustifications (text : Str) : List (Str × Str) :=
  go (text.length + 1) true text []
where
  go : Nat → Bool → Str → List (Str × Str) → List (Str × Str)
  | 0, _, _, acc => acc
  | _, _, [], acc => acc
  | fuel + 1, atStart, c :: rest, acc =>
    if atStart then
      match tryJustAt (c :: rest) with
      | some kvc => go fuel false ((c :: rest).drop kvc.2.2) (assocPut acc kvc.1 kvc.2.1)
      | none => go fuel (c = '\n') rest acc
    else go fuel (c = '\n') rest acc

/-- The parsed decision envelope (`_parse_decision_metadata`). -/
structure DecisionMetadata where
  decision : Option Str
  action : Option Str
  category : Option Str
  targetId : Option Str
  referenceIds : List Str
  justification : List (Str × Str)
  reason : Option Str
deriving DecidableEq, Repr

/-- `_parse_decision_metadata`. -/
def parseDecisionMetadata (text : Str) : DecisionMetadata :=
  { decision :=
      (searchHeaderVal ["DECISION:".data] isWordChar false text).map (List.map Char.toUpper)
    action :=
      (searchHeaderVal ["ACTION:".data] (fun c => c.isAlpha || c = '_') false text).map
        (List.map Char.toLower)
    category :=
      (searchHeaderVal ["CATEGORY:".data] Char.isAlpha true text).map (List.map Char.toUpper)
    targetId :=
      (searchHeaderVal ["TARGET_ID:".data] (fun c => c.isAlpha || c.isDigit || c = '-') false
        text).map (List.map Char.toUpper)
    referenceIds :=
      match searchHeaderVal ["REFERENCE_IDS:".data, "REFERENCE_ID:".data]
          (fun c => c.isAlpha || c.isDigit || c = ',' || c = '-' || isPySpace c) false text with
      | none => []
      | some v =>
        ((splitOnSub [','] v).map pystrip).filter (fun r => r ≠ []) |>.map
          (List.map Char.toUpper)
    justification := scanJustifications text
    reason := searchDotVal ("REASON:".data) text }

/-- `_parse_patch_metadata`'s primary id: the first line matching
`^####\s+.*\((ID)\)\s*$` with `ID = [A-Z][A-Z0-9\-]+`; since `$` anchors
the closing parenthesis at the (whitespace-trimmed) end of the line, the
id is the maximal id-character suffix there. -/
def parsePatchPrimaryId (patch : Str) : Option Str :=
  (splitOnSub ['\n'] patch).findSome? (fun line =>
    match line with
    | '#' :: '#' :: '#' :: '#' :: rest =>
      if (rest.takeWhile isPySpace) = [] then none
      else
        let r := rstrip rest
        if r.getLast? = some ')' then
          let body := r.dropLast
          let runRev := body.reverse.takeWhile idChar
          let run := runRev.reverse
          if 2 ≤ run.length ∧ (run.headD '-').isUpper
              ∧ (body.reverse.drop runRev.length).headD ' ' = '(' then
            some run
          else none
        else none
    | _ => none)

/-- `_read_existing_strategy_ids`: every `(ID)` occurrence anywhere in the
library text, `ID = [A-Z][A-Z0-9\-]+`; a missing library file gives the
empty set. -/
def existingStrategyIds (library : Option Str) : List Str :=
  match library with
  | none => []
  | some text =>
    (List.range text.length).filterMap (fun i =>
      match text.drop i with
      | '(' :: rest =>
        let run := rest.takeWhile idChar
        if 2 ≤ run.length ∧ (run.headD '-').isUpper ∧ (rest.drop run.length).headD ' ' = ')'
        then some run
        else none
      | _ => none)

/-- Defaults of `Stage2CapabilityUpgradeAgent.__init__`. -/
def MAX_NEW_PER_CATEGORY : Nat := 1

/-- Default `min_reference_ids`. -/
def MIN_REFERENCE_IDS : Nat := 2

/-- Result of `_should_apply_patch`: the decision, the reason string, and
the `new_category` letter recorded into the metadata on acceptance. -/
structure ShouldApply where
  ok : Bool
  reason : Str
  newCategory : Option Char
deriving DecidableEq, Repr

/-- `_should_apply_patch`. -/
def shouldApplyPatch (md : DecisionMetadata) (patch : Str) (library : Option Str)
    (counts : Char → Nat) : ShouldApply :=
  let action := md.action.getD []
  if ¬ (action = "create_new".data ∨ action = "enhance_existing".data) then
    ⟨false, "unsupported action: ".data ++ (if action = [] then "missing".data else action),
      none⟩
  else if (assocGet md.justification ("coverage_gap".data)).getD [] = [] then
    ⟨false, "missing justification for coverage_gap".data, none⟩
  else if (assocGet md.justification ("reuse_failure".data)).getD [] = [] then
    ⟨false, "missing justification for reuse_failure".data, none⟩
  else if (assocGet md.justification ("new_value".data)).getD [] = [] then
    ⟨false, "missing justification for new_value".data, none⟩
  else if md.referenceIds.length < MIN_REFERENCE_IDS then
    ⟨false, "insufficient reference_ids to prove novelty".data, none⟩
  else
    let existingIds := existingStrategyIds library
    if action = "create_new".data then
      match parsePatchPrimaryId patch with
      | none => ⟨false, "unable to locate new strategy id in patch".data, none⟩
      | some nid =>
        if existingIds.contains nid then
          ⟨false, "strategy id ".data ++ nid ++ " already exists".data, none⟩
        else
          let c := nid.headD 'A'
          if MAX_NEW_PER_CATEGORY ≤ counts c then
            ⟨false, "category ".data ++ [c] ++ " reached new strategy quota".data, none⟩
          else ⟨true, "accepted new strategy ".data ++ nid, some c⟩
    else
      match md.targetId with
      | none => ⟨false, "missing target_id for enhancement action".data, none⟩
      | some tid =>
        if ¬ existingIds.contains tid then
          ⟨false, "target strategy ".data ++ tid ++ " not found".data, none⟩
        else ⟨true, "enhanced existing strategy ".data ++ tid, some (tid.headD 'A')⟩

/-- Modelled from the spec: `CapabilityUpgradeAgent.apply_patch` lives in
the `capability_upgrade_agent` module, which is not under `src/`; per the
spec, "If accepted, the body is appended to the library file (optionally
after writing a timestamped backup copy)" and `last_applied_path` is set
to the library file. -/
def applyPatchModel (library : Option Str) (patch : Str) : Option Str :=
  some (library.getD [] ++ patch)

/-- The substring guarding the annotation step. -/
def AUTO_APPLY_KEY : Str := "AUTO_APPLY_STATUS:".data

/-- State and output of one `Stage2CapabilityUpgradeAgent.evaluate_text`
run after the LLM reply: the annotated stage output, the
`last_patch_markdown` / `last_applied_path` fields, the strategy library
file content, the session counters, and the computed `applied` flag. -/
structure UpgradeOutcome where
  text : Str
  lastPatch : Option Str
  lastApplied : Option Str
  library : Option Str
  counts : Char → Nat
  applied : Bool

/-- The post-LLM tail of `Stage2CapabilityUpgradeAgent.evaluate_text`
(lines 93–125): `result_text` is the reply of `super().evaluate_text()`
and `patchMarkdown` the `last_patch_markdown` it extracted (the parent
class is the external `capability_upgrade_agent` module).  The optional
`finish_form` write simply delegates `result_text` to
`updateFormSection` and is omitted here. -/
def evaluateTextPost (counts : Char → Nat) (library : Option Str) (libraryPath : Str)
    (resultText : Str) (patchMarkdown : Option Str) : UpgradeOutcome :=
  let md := parseDecisionMetadata resultText
  let patchTruthy := (patchMarkdown.getD []) ≠ []
  let step :
      Bool × Str × Option Str × Option Str × Option Str × (Char → Nat) :=
    if md.decision = some ("APPLY".data) ∧ patchTruthy then
      let patch := patchMarkdown.getD []
      let sa := shouldApplyPatch md patch library counts
      if sa.ok then
        let newCounts :=
          match sa.newCategory with
          | some c => fun d => if d = c then counts d + 1 else counts d
          | none => counts
        (true, sa.reason, some patch, some libraryPath, applyPatchModel library patch,
          newCounts)
      else (false, sa.reason, none, none, library, counts)
    else
      let reason :=
        if md.decision = none then "missing decision header".data
        else if md.decision ≠ some ("APPLY".data) then "decision=".data ++ md.decision.getD []
        else "no patch content detected".data
      (false, reason, none, none, library, counts)
  let applied := step.1
  let reason := step.2.1
  let statusLine :=
    "AUTO_APPLY_STATUS: ".data ++ (if applied then "applied".data else "skipped".data)
      ++ (if reason ≠ [] then " (".data ++ reason ++ [')'] else [])
  let text :=
    if containsSub AUTO_APPLY_KEY resultText then resultText
    else rstrip resultText ++ "\n\n".data ++ statusLine
  ⟨text, step.2.2.1, step.2.2.2.1, step.2.2.2.2.1, step.2.2.2.2.2, applied⟩

/-! ## Derived shapes and concrete inputs used by the claims -/

/-- The middle of an anchored section right after `updateFormSection`
rewrote it: newline, sanitized content, newline. -/
def newMid (content : Str) : Str :=
  ['\n'] ++ sanitizeContent content DEFAULT_PLACEHOLDER ++ ['\n']

/-- The document `a ++ start ++ m ++ end ++ b` carries the anchor pair of
`name` exactly once, at the visible occurrence (the spec's invariant
"every anchor name used by a writer must occur zero or one time in the
document with matching start/end tokens"). -/
def wellAnchored (name a m b : Str) : Prop :=
  uniqueAt (startMarker name) (a ++ startMarker name ++ m ++ endMarker name ++ b) a.length
    ∧ uniqueAt (endMarker name) (a ++ startMarker name ++ m ++ endMarker name ++ b)
        (a.length + (startMarker name).length + m.length)

instance (name a m b : Str) : Decidable (wellAnchored name a m b) := by
  unfold wellAnchored
  infer_instance

/-- A two-anchor collaboration form: live plan anchor followed by watcher
audit anchor, with arbitrary surroundings. -/
def watcherDoc (A mP C mA B : Str) : Str :=
  A ++ startMarker LIVE_PLAN_MARKER ++ mP ++ endMarker LIVE_PLAN_MARKER
    ++ (C ++ startMarker ("WATCHER_AUDIT".data) ++ mA ++ endMarker ("WATCHER_AUDIT".data) ++ B)

/-- Concrete document with one anchor `A` holding two lines. -/
def cexDocA : Str :=
  "# Doc\n\n<!-- A_START -->\nfoo\nbar\n<!-- A_END -->\n\ntail\n".data

/-- Concrete collaboration form with a live plan and an audit section. -/
def cexWatchA : Str := "# F\n\n## Live Execution Plan\n\n".data

/-- Plan content of the concrete form. -/
def cexWatchMP : Str := "\nOLD PLAN\n".data

/-- Text between the two anchors of the concrete form. -/
def cexWatchC : Str := "\n\n## Watcher Audit Report\n\n".data

/-- Audit content of the concrete form. -/
def cexWatchMA : Str := "\nOLDAUDIT\n".data

/-- Trailing text of the concrete form. -/
def cexWatchB : Str := "\n".data

/-- The assembled concrete watcher form. -/
def cexWatchDoc : Str := watcherDoc cexWatchA cexWatchMP cexWatchC cexWatchMA cexWatchB

/-- A concrete watcher model reply carrying a revised plan. -/
def cexPlanResp : Str := "```plan\nNEW PLAN\n```".data

/-- A document with no live-plan anchor at all. -/
def cexNoPlanDoc : Str := "# empty document\n".data

/-- A concrete loop environment (constant oracles). -/
def cexLoopEnv : LoopEnv :=
  ⟨fun _ => "Final Answer: done".data, fun _ _ => ⟨true, "ok".data, none⟩,
    fun _ => "args".data, none, none⟩

/-- Concrete strategy library holding the id `I2`. -/
def cexLib : Str := "### I. Strategies\n\n#### Bar (I2)\nExisting entry.\n".data

/-- All-zero session counters. -/
def cexCounts : Char → Nat := fun _ => 0

/-- Concrete library path string. -/
def cexLibPath : Str := "strategy_library/strategy.md".data

/-- A complete APPLY/create_new decision envelope whose body id `I3` is
fresh for `cexLib`. -/
def cexEnvelopeI3 : Str :=
  "DECISION: APPLY\nACTION: create_new\nCATEGORY: I\nREFERENCE_IDS: I1, I2\ncoverage_gap: gap\nreuse_failure: fail\nnew_value: value\nREASON: because\n\n#### Foo (I3)\nbody text\n".data

/-- Its patch body. -/
def cexPatchI3 : Str := "#### Foo (I3)\nbody text\n".data

/-- The same envelope but with the already-existing body id `I2`. -/
def cexEnvelopeI2 : Str :=
  "DECISION: APPLY\nACTION: create_new\nCATEGORY: I\nREFERENCE_IDS: I1, I2\ncoverage_gap: gap\nreuse_failure: fail\nnew_value: value\n".data

/-- Patch body re-using the existing id `I2`. -/
def cexPatchI2 : Str := "#### Foo (I2)\nbody text\n".data

/-- A model reply that already contains the guard substring with an
arbitrary value. -/
def cexBananaText : Str := "AUTO_APPLY_STATUS: banana".data

/-- Concrete provider oracle: Tavily initialized, API returns empty
content for every query. -/
def cexZeroProvider : Str → ToolResultL := fun q => tavilySearchOutcome true [] q

/-- Concrete provider oracle: Tavily unavailable (missing API key). -/
def cexDownProvider : Str → ToolResultL := fun q => tavilySearchOutcome false ("x".data) q

/-- Concrete always-safe validator oracle. -/
def cexValidateOk : Str → Bool × Str × Str := fun code => (true, code, [])

/-- Concrete validator oracle rejecting the code. -/
def cexValidateBad : Str → Bool × Str × Str := fun code => (false, code, "危险模式被阻止".data)

/-- Concrete executor oracle. -/
def cexRunner : Str → Bool × Str × Str := fun _ => (true, "ok".data, [])

/-! ## Substring occurrence lemmas -/

theorem pfx_append_self (p t : Str) : pfx p (p ++ t) = true := by
  induction p with
  | nil => rfl
  | cons a p ih => simp [pfx, ih]

theorem pfx_iff (p : Str) : ∀ s : Str, pfx p s = true ↔ ∃ t, s = p ++ t := by
  induction p with
  | nil => intro s; simp [pfx]
  | cons a p ih =>
    intro s
    cases s with
    | nil => simp [pfx]
    | cons b s => simp [pfx, ih s, List.cons_eq_cons, eq_comm (a := b)]

theorem pfx_extend {p w : Str} (v : Str) (h : pfx p w = true) : pfx p (w ++ v) = true := by
  obtain ⟨t, rfl⟩ := (pfx_iff p w).mp h
  rw [List.append_assoc]
  exact pfx_append_self p (t ++ v)

theorem pfx_nil_imp {p : Str} (h : pfx p [] = true) : p = [] := by
  cases p with
  | nil => rfl
  | cons a q => simp [pfx] at h

theorem firstIdx_occ {p s : Str} : ∀ {i : Nat}, firstIdx p s = some i → occB p s i = true := by
  induction s with
  | nil =>
    intro i h
    unfold firstIdx at h
    by_cases hp : pfx p [] = true
    · simp [hp] at h
      subst h
      simpa [occB] using hp
    · simp [hp] at h
  | cons c t ih =>
    intro i h
    unfold firstIdx at h
    by_cases hp : pfx p (c :: t) = true
    · simp [hp] at h
      subst h
      simpa [occB] using hp
    · simp [hp] at h
      obtain ⟨j, hj, rfl⟩ := h
      have := ih hj
      simpa [occB] using this

theorem firstIdx_exists_le {p s : Str} : ∀ {i : Nat}, occB p s i = true →
    ∃ j, j ≤ i ∧ firstIdx p s = some j := by
  induction s with
  | nil =>
    intro i h
    have hp : pfx p [] = true := by simpa [occB] using h
    exact ⟨0, Nat.zero_le i, by simp [firstIdx, hp]⟩
  | cons c t ih =>
    intro i h
    by_cases hp : pfx p (c :: t) = true
    · exact ⟨0, Nat.zero_le i, by simp [firstIdx, hp]⟩
    · cases i with
      | zero => simp [occB, hp] at h
      | succ i =>
        have h' : occB p t i = true := by simpa [occB] using h
        obtain ⟨j, hj, hf⟩ := ih h'
        exact ⟨j + 1, Nat.succ_le_succ hj, by simp [firstIdx, hp, hf]⟩

theorem firstIdx_unique {p s : Str} {i : Nat} (hocc : occB p s i = true)
    (honly : ∀ j, occB p s j = true → j = i) : firstIdx p s = some i := by
  obtain ⟨j, _, hf⟩ := firstIdx_exists_le hocc
  have hji := honly j (firstIdx_occ hf)
  rw [← hji]
  exact hf

theorem mem_positions {p s : Str} {i : Nat} :
    i ∈ positions p s ↔ i < s.length + 1 ∧ occB p s i = true := by
  simp [positions, List.mem_filter, List.mem_range, and_comm]

theorem uniqueAt_occ {p s : Str} {i : Nat} (h : uniqueAt p s i) : occB p s i = true := by
  have : i ∈ positions p s := by
    rw [h]
    exact List.mem_singleton.mpr rfl
  exact (mem_positions.mp this).2

theorem uniqueAt_only {p s : Str} {i : Nat} (h : uniqueAt p s i) (hp : p ≠ [])
    {j : Nat} (hj : occB p s j = true) : j = i := by
  by_cases hlen : j < s.length + 1
  · have hm : j ∈ positions p s := mem_positions.mpr ⟨hlen, hj⟩
    rw [h] at hm
    simpa using hm
  · exfalso
    have hd : s.drop j = [] := List.drop_eq_nil_of_le (by omega)
    have : pfx p [] = true := by simpa [occB, hd] using hj
    exact hp (pfx_nil_imp this)

theorem uniqueAt_firstIdx {p s : Str} {i : Nat} (h : uniqueAt p s i) (hp : p ≠ []) :
    firstIdx p s = some i :=
  firstIdx_unique (uniqueAt_occ h) (fun _ hj => uniqueAt_only h hp hj)

theorem drop_append_len (u v : Str) (k : Nat) : (u ++ v).drop (u.length + k) = v.drop k := by
  rw [← List.drop_drop, List.drop_left]

theorem occB_shift (p u v : Str) (k : Nat) : occB p (u ++ v) (u.length + k) = occB p v k := by
  unfold occB
  rw [drop_append_len]

theorem containsSub_of_occ {p s : Str} {i : Nat} (h : occB p s i = true) :
    containsSub p s = true := by
  obtain ⟨j, _, hf⟩ := firstIdx_exists_le h
  simp [containsSub, hf]

theorem containsSub_append_right {p v : Str} (u : Str) (h : containsSub p v = true) :
    containsSub p (u ++ v) = true := by
  obtain ⟨i, hi⟩ := Option.isSome_iff_exists.mp h
  have hocc := firstIdx_occ hi
  have : occB p (u ++ v) (u.length + i) = true := by rw [occB_shift]; exact hocc
  exact containsSub_of_occ this

theorem containsSub_append_left {p u : Str} (v : Str) (h : containsSub p u = true) :
    containsSub p (u ++ v) = true := by
  obtain ⟨i, hi⟩ := Option.isSome_iff_exists.mp h
  have hocc : pfx p (u.drop i) = true := firstIdx_occ hi
  by_cases hl : i ≤ u.length
  · have hocc2 : occB p (u ++ v) i = true := by
      unfold occB
      rw [List.drop_append_of_le_length hl]
      exact pfx_extend v hocc
    exact containsSub_of_occ hocc2
  · have hd : u.drop i = [] := List.drop_eq_nil_of_le (by omega)
    have hp : p = [] := pfx_nil_imp (by simpa [hd] using hocc)
    subst hp
    exact containsSub_of_occ (i := 0) (by simp [occB, pfx])

theorem containsSub_join {p sep : Str} : ∀ {xs : List Str} {a : Str}, a ∈ xs →
    containsSub p a = true → containsSub p (joinSep sep xs) = true := by
  intro xs
  induction xs with
  | nil => intro a ha; cases ha
  | cons x rest ih =>
    intro a ha h
    cases rest with
    | nil =>
      have : a = x := by simpa using ha
      subst this
      simpa [joinSep] using h
    | cons y t =>
      rcases List.mem_cons.mp ha with rfl | hmem
      · exact containsSub_append_left _ (containsSub_append_left _ h)
      · exact containsSub_append_right _ (ih hmem h)

/-! ## Line-ending normalization lemmas -/

theorem replaceCRLF_cons {c : Char} (t : Str) (hc : c ≠ '\r') :
    replaceCRLF (c :: t) = c :: replaceCRLF t := by
  cases t with
  | nil => rfl
  | cons d rest => simp [replaceCRLF, hc]

theorem replaceCRLF_self {s : Str} (h : '\r' ∉ s) : replaceCRLF s = s := by
  induction s with
  | nil => rfl
  | cons c t ih =>
    have hc : c ≠ '\r' := fun e => h (by simp [e])
    have ht : '\r' ∉ t := fun hm => h (List.mem_cons_of_mem c hm)
    rw [replaceCRLF_cons t hc, ih ht]

theorem replaceCRLF_lfToCrlf {s : Str} (h : '\r' ∉ s) : replaceCRLF (lfToCrlf s) = s := by
  induction s with
  | nil => rfl
  | cons c t ih =>
    have hc : c ≠ '\r' := fun e => h (by simp [e])
    have ht : '\r' ∉ t := fun hm => h (List.mem_cons_of_mem c hm)
    by_cases hn : c = '\n'
    · subst hn
      show replaceCRLF (lfToCrlf ('\n' :: t)) = '\n' :: t
      rw [show lfToCrlf ('\n' :: t) = '\r' :: '\n' :: lfToCrlf t from by simp [lfToCrlf]]
      simp [replaceCRLF, ih ht]
    · rw [show lfToCrlf (c :: t) = c :: lfToCrlf t from by simp [lfToCrlf, hn],
        replaceCRLF_cons _ hc, ih ht]

theorem mem_of_mem_dropWhile {p : Char → Bool} {c : Char} {l : Str}
    (h : c ∈ l.dropWhile p) : c ∈ l :=
  (List.dropWhile_sublist p).subset h

theorem not_mem_pystrip {c : Char} {s : Str} (h : c ∉ s) : c ∉ pystrip s := by
  intro hm
  apply h
  unfold pystrip rstrip lstrip at hm
  have h1 := List.mem_reverse.mp hm
  have h2 := mem_of_mem_dropWhile h1
  have h3 := List.mem_reverse.mp h2
  exact mem_of_mem_dropWhile h3

theorem not_mem_sanitize {c : Char} {s p : Str} (hs : c ∉ s) (hp : c ∉ p) :
    c ∉ sanitizeContent s p := by
  unfold sanitizeContent
  by_cases h : pystrip s = [] <;> simp [h]
  · exact hp
  · exact not_mem_pystrip hs

/-! ## Trimming lemmas -/

theorem lstrip_cons_space {c : Char} (t : Str) (h : isPySpace c = true) :
    lstrip (c :: t) = lstrip t := by
  simp [lstrip, List.dropWhile_cons, h]

theorem lstrip_cons_keep {c : Char} (t : Str) (h : isPySpace c = false) :
    lstrip (c :: t) = c :: t := by
  simp [lstrip, List.dropWhile_cons, h]

theorem rstrip_append_space {c : Char} (t : Str) (h : isPySpace c = true) :
    rstrip (t ++ [c]) = rstrip t := by
  simp [rstrip, List.reverse_append, List.dropWhile_cons, h]

theorem rstrip_cons_keep {c : Char} (t : Str) (h : isPySpace c = false) :
    rstrip (c :: t) = c :: rstrip t := by
  unfold rstrip
  rw [List.reverse_cons, List.dropWhile_append]
  cases hdw : t.reverse.dropWhile isPySpace with
  | nil => simp [List.dropWhile_cons, h]
  | cons d rest => simp [List.dropWhile_cons, h, hdw]

theorem lstrip_head_not_space {s : Str} : ∀ {c : Char} {v : Str}, lstrip s = c :: v →
    isPySpace c = false := by
  induction s with
  | nil => intro c v h; simp [lstrip] at h
  | cons a t ih =>
    intro c v h
    by_cases ha : isPySpace a = true
    · exact ih (by rwa [lstrip_cons_space t ha] at h)
    · have ha' : isPySpace a = false := by simpa using ha
      rw [lstrip_cons_keep t ha'] at h
      cases h
      exact ha'

theorem rstrip_idem (s : Str) : rstrip (rstrip s) = rstrip s := by
  unfold rstrip
  rw [List.reverse_reverse, List.dropWhile_idempotent]

theorem lstrip_rstrip_of_lstrip {u : Str} (h : lstrip u = u) : lstrip (rstrip u) = rstrip u := by
  cases u with
  | nil => rfl
  | cons c t =>
    have hc : isPySpace c = false := lstrip_head_not_space h
    rw [rstrip_cons_keep t hc, lstrip_cons_keep _ hc]

theorem pystrip_idem (s : Str) : pystrip (pystrip s) = pystrip s := by
  unfold pystrip
  have h1 : lstrip (lstrip s) = lstrip s := by
    unfold lstrip
    rw [List.dropWhile_idempotent]
  have h2 := lstrip_rstrip_of_lstrip h1
  rw [h2, rstrip_idem]

theorem pystrip_nonempty_of_head {c : Char} (t : Str) (h : isPySpace c = false) :
    pystrip (c :: t) ≠ [] := by
  unfold pystrip
  rw [lstrip_cons_keep t h, rstrip_cons_keep t h]
  exact List.cons_ne_nil c (rstrip t)

theorem pystrip_wrap (t : Str) : pystrip (['\n'] ++ t ++ ['\n']) = pystrip t := by
  have hsp : isPySpace '\n' = true := by decide
  show pystrip ('\n' :: (t ++ ['\n'])) = pystrip t
  unfold pystrip
  rw [lstrip_cons_space _ hsp]
  unfold lstrip
  rw [List.dropWhile_append]
  cases h : t.dropWhile isPySpace with
  | nil => simp [List.dropWhile_cons, hsp, rstrip]
  | cons d rest =>
    simp only [List.isEmpty_cons, Bool.false_eq_true, if_false]
    exact rstrip_append_space _ hsp

/-! ## Locating and rewriting a well-anchored section -/

theorem startMarker_ne_nil (name : Str) : startMarker name ≠ [] := by
  intro h
  have h2 := congrArg List.length h
  simp only [startMarker, List.length_append, List.length_nil] at h2
  rw [show ("<!-- ".data).length = 5 from rfl, show ("_START -->".data).length = 10 from rfl]
    at h2
  omega

theorem endMarker_ne_nil (name : Str) : endMarker name ≠ [] := by
  intro h
  have h2 := congrArg List.length h
  simp only [endMarker, List.length_append, List.length_nil] at h2
  rw [show ("<!-- ".data).length = 5 from rfl, show ("_END -->".data).length = 8 from rfl]
    at h2
  omega

theorem anchor_locate (name a m b : Str) (hw : wellAnchored name a m b) :
    firstIdx (startMarker name) (a ++ startMarker name ++ m ++ endMarker name ++ b)
        = some a.length
      ∧ firstIdx (endMarker name) (m ++ (endMarker name ++ b)) = some m.length := by
  obtain ⟨h1, h2⟩ := hw
  refine ⟨uniqueAt_firstIdx h1 (startMarker_ne_nil name), ?_⟩
  have hdoc : a ++ startMarker name ++ m ++ endMarker name ++ b
      = a ++ (startMarker name ++ (m ++ (endMarker name ++ b))) := by
    simp [List.append_assoc]
  have htail : (a ++ startMarker name ++ m ++ endMarker name ++ b).drop
      (a.length + (startMarker name).length) = m ++ (endMarker name ++ b) := by
    rw [hdoc, drop_append_len, List.drop_left]
  have hocc : occB (endMarker name) (m ++ (endMarker name ++ b)) m.length = true := by
    unfold occB
    rw [List.drop_left]
    exact pfx_append_self _ _
  refine firstIdx_unique hocc ?_
  intro k hk
  have hk2 : occB (endMarker name) (a ++ startMarker name ++ m ++ endMarker name ++ b)
      (a.length + (startMarker name).length + k) = true := by
    unfold occB
    rw [← List.drop_drop, htail]
    exact hk
  have := uniqueAt_only h2 (endMarker_ne_nil name) hk2
  omega

theorem drop_past_three (a x y z b : Str) :
    (a ++ (x ++ (y ++ (z ++ b)))).drop (a.length + (x.length + (y.length + z.length))) = b := by
  rw [drop_append_len, drop_append_len, drop_append_len, List.drop_left]

theorem update_spliced (name a m b c : Str) (header : Option Str)
    (hcr : replaceCRLF (a ++ startMarker name ++ m ++ endMarker name ++ b)
      = a ++ startMarker name ++ m ++ endMarker name ++ b)
    (hw : wellAnchored name a m b) :
    updateFormSection (a ++ startMarker name ++ m ++ endMarker name ++ b) name c header
      = a ++ startMarker name ++ newMid c ++ endMarker name ++ b := by
  obtain ⟨hfs, hfe⟩ := anchor_locate name a m b hw
  have hdoc : a ++ startMarker name ++ m ++ endMarker name ++ b
      = a ++ (startMarker name ++ (m ++ (endMarker name ++ b))) := by
    simp [List.append_assoc]
  have htail : (a ++ startMarker name ++ m ++ endMarker name ++ b).drop
      (a.length + (startMarker name).length) = m ++ (endMarker name ++ b) := by
    rw [hdoc, drop_append_len, List.drop_left]
  simp only [updateFormSection, findPair, hcr, htail, hfs, hfe]
  have htake : (a ++ startMarker name ++ m ++ endMarker name ++ b).take a.length = a := by
    rw [hdoc]
    exact List.take_left a _
  have hidx : a.length + (startMarker name).length + m.length + (endMarker name).length
      = a.length + ((startMarker name).length + (m.length + (endMarker name).length)) := by
    omega
  have hdrop : (a ++ startMarker name ++ m ++ endMarker name ++ b).drop
      (a.length + (startMarker name).length + m.length + (endMarker name).length) = b := by
    rw [hdoc, hidx, drop_past_three]
  rw [htake, hdrop]
  simp [newMid, List.append_assoc]

theorem read_spliced (name a m b : Str)
    (hcr : replaceCRLF (a ++ startMarker name ++ m ++ endMarker name ++ b)
      = a ++ startMarker name ++ m ++ endMarker name ++ b)
    (hw : wellAnchored name a m b) :
    readFormSection (a ++ startMarker name ++ m ++ endMarker name ++ b) name
      = some (pystrip m) := by
  obtain ⟨hfs, hfe⟩ := anchor_locate name a m b hw
  have hdoc : a ++ startMarker name ++ m ++ endMarker name ++ b
      = a ++ (startMarker name ++ (m ++ (endMarker name ++ b))) := by
    simp [List.append_assoc]
  have htail : (a ++ startMarker name ++ m ++ endMarker name ++ b).drop
      (a.length + (startMarker name).length) = m ++ (endMarker name ++ b) := by
    rw [hdoc, drop_append_len, List.drop_left]
  simp only [readFormSection, hcr, htail, hfs, hfe]
  rw [List.take_left m _]

/-! ## Remaining helper lemmas -/

theorem noCR_append {u v : Str} (hu : '\r' ∉ u) (hv : '\r' ∉ v) : '\r' ∉ u ++ v := by
  intro hm
  rcases List.mem_append.mp hm with h | h
  · exact hu h
  · exact hv h

theorem lit_append_ne_nil {u : Str} (h : u ≠ []) (v : Str) : u ++ v ≠ [] := by
  intro he
  exact h (List.append_eq_nil.mp he).1

theorem pystrip_placeholder : pystrip DEFAULT_PLACEHOLDER = DEFAULT_PLACEHOLDER := by decide

theorem pystrip_newMid (c : Str) : pystrip (newMid c) = sanitizeContent c DEFAULT_PLACEHOLDER := by
  unfold newMid
  rw [pystrip_wrap]
  unfold sanitizeContent
  by_cases h : pystrip c = []
  · simp only [h, if_pos]
    exact pystrip_placeholder
  · simp only [h, if_neg]
    exact pystrip_idem c

theorem extract_stripped {r p : Str} (h : extractRevisedPlan r = some p) : pystrip p = p := by
  simp only [extractRevisedPlan] at h
  split at h
  · exact absurd h (by simp)
  · split at h
    · exact absurd h (by simp)
    · split at h
      · exact absurd h (by simp)
      · have hp := Option.some.inj h
        rw [← hp]
        exact pystrip_idem _

theorem extract_no_cr {r p : Str} (h : extractRevisedPlan r = some p) (hr : '\r' ∉ r) :
    '\r' ∉ p := by
  simp only [extractRevisedPlan] at h
  split at h
  · exact absurd h (by simp)
  · split at h
    · exact absurd h (by simp)
    · split at h
      · exact absurd h (by simp)
      · have hp := Option.some.inj h
        rw [← hp]
        apply not_mem_pystrip
        intro hm
        exact hr ((List.drop_sublist _ _).subset ((List.take_sublist _ _).subset hm))

/-- C6 (amended): `read_form_section` normalizes `\r\n` to `\n` before
matching, so reading any anchor from the CRLF-encoded form of a document
returns the same content as reading it from the LF form. -/
theorem read_form_section_crlf_invariant (doc name : Str) (h : '\r' ∉ doc) :
    readFormSection (lfToCrlf doc) name = readFormSection doc name := by
  unfold readFormSection
  rw [replaceCRLF_lfToCrlf h, replaceCRLF_self h]

/-- Witness for `read_form_section_crlf_invariant` at a concrete two-line
anchored document. -/
theorem read_form_section_crlf_invariant_witness :
    readFormSection (lfToCrlf cexDocA) ("A".data) = readFormSection cexDocA ("A".data) :=
  read_form_section_crlf_invariant cexDocA ("A".data) (by decide)

/-- C6 (counterexample): `MemoryBridge.load_stage_output` does not
normalize line endings, and on the CRLF form of a document whose anchored
section spans two lines it returns content that retains a `\r`, unlike
the LF form — refuting the claim that every reader normalizes. -/
theorem load_stage_output_crlf_cex :
    loadStageOutput (lfToCrlf cexDocA) ("A".data) ≠ loadStageOutput cexDocA ("A".data)
      ∧ loadStageOutput cexDocA ("A".data) = "foo\nbar".data
      ∧ loadStageOutput (lfToCrlf cexDocA) ("A".data) = "foo\r\nbar".data := by
  refine ⟨?_, by decide, by decide⟩
  decide

/-- C9: `ensure_markers` on a non-existent path returns without raising
and creates no file, while `update_form_section` on the same missing path
raises the missing-document error. -/
theorem missing_document_contrast (pairs : List (Str × Str)) (path name content : Str)
    (header : Option Str) :
    ensureMarkersFS none pairs = none
      ∧ updateFormSectionFS none path name content header
          = Except.error ("finish_form document not found: ".data ++ path) :=
  ⟨rfl, rfl⟩

/-- C10: when the live plan anchor is missing or trims to empty,
`revise_plan` returns `False` at once and leaves the document unchanged;
the result does not depend on the model reply (the model is never
consulted). -/
theorem revise_plan_empty_gate (doc tool : Str)
    (h : pystrip ((readLivePlan doc).getD []) = []) (resp : Str) :
    revisePlan doc tool resp = (false, doc) := by
  simp [revisePlan, h]

/-- Witness for `revise_plan_empty_gate`: a document with no live-plan
anchor, against a reply that carries a genuine plan revision. -/
theorem revise_plan_empty_gate_witness :
    revisePlan cexNoPlanDoc ("t".data) ("```plan\nNEW\n```".data) = (false, cexNoPlanDoc) :=
  revise_plan_empty_gate cexNoPlanDoc ("t".data) (by decide) ("```plan\nNEW\n```".data)

/-- C7: `CodeSandbox.execute` raises `NameError` (the module never imports
`datetime`) on every path that reaches the final result dict — `low`,
`medium`, and `high` with code that passes validation — so no dict with a
`method` key is returned there; only the high-level validation-failure
early return produces a dict, with `method = "validation"`. -/
theorem sandbox_missing_datetime_bug :
    sandboxExecute cexValidateOk cexRunner cexRunner ("x = 1".data) ("low".data)
        = Except.error nameDatetimeError
      ∧ sandboxExecute cexValidateOk cexRunner cexRunner ("x = 1".data) ("medium".data)
          = Except.error nameDatetimeError
      ∧ sandboxExecute cexValidateOk cexRunner cexRunner ("x = 1".data) ("high".data)
          = Except.error nameDatetimeError
      ∧ sandboxExecute cexValidateBad cexRunner cexRunner ("import os".data) ("high".data)
          = Except.ok ⟨false, [], "代码验证失败: 危险模式被阻止".data, "validation".data⟩ := by
  refine ⟨rfl, rfl, rfl, rfl⟩

/-- C1 (amended): with `max_iterations = 0` the Stage-4 live-document loop
sends nothing to the model — in particular no `[FINAL_ANSWER_REQUIRED]`
forced-finalization prompt, which fires only when the last assistant
reply contained tool calls — and returns the empty response text with the
document untouched. -/
theorem live_loop_zero_iterations (env : LoopEnv) (messages : List Msg) (doc : Str) :
    runLiveDocumentLoop env 0 messages doc = ⟨[], messages, doc⟩ := by
  rfl

/-- C1 (counterexample): at a concrete environment and document, the loop
with `max_iterations = 0` returns empty text and sends no message at all,
refuting that it emits the forced final-answer prompt and returns a
non-empty response. -/
theorem live_loop_zero_iterations_cex :
    (runLiveDocumentLoop cexLoopEnv 0 [] cexNoPlanDoc).finalText = []
      ∧ (runLiveDocumentLoop cexLoopEnv 0 [] cexNoPlanDoc).messages = [] :=
  ⟨rfl, rfl⟩

/-- C8 (amended): on a CR-free document carrying the anchor pair of
`name` exactly once (the spec's own invariant), and contents whose
spliced-in blocks keep the pair unique, the sequence
`update(doc, A, x); update(doc, A, y); read(doc, A)` returns `y` after
trimming — or the placeholder token when `y` trims to empty (that is,
`sanitizeContent y`). -/
theorem anchor_update_update_read (name a m b x y : Str) (header : Option Str)
    (hra : '\r' ∉ a) (hrn : '\r' ∉ name) (hrm : '\r' ∉ m) (hrb : '\r' ∉ b)
    (hrx : '\r' ∉ x) (hry : '\r' ∉ y)
    (hw0 : wellAnchored name a m b)
    (hw1 : wellAnchored name a (newMid x) b)
    (hw2 : wellAnchored name a (newMid y) b) :
    readFormSection
        (updateFormSection
          (updateFormSection (a ++ startMarker name ++ m ++ endMarker name ++ b) name x header)
          name y header)
        name
      = some (sanitizeContent y DEFAULT_PLACEHOLDER) := by
  have hnl : '\r' ∉ (['\n'] : Str) := by decide
  have hdp : '\r' ∉ DEFAULT_PLACEHOLDER := by decide
  have hrs : '\r' ∉ startMarker name := by
    unfold startMarker
    exact noCR_append (noCR_append (by decide) hrn) (by decide)
  have hre : '\r' ∉ endMarker name := by
    unfold endMarker
    exact noCR_append (noCR_append (by decide) hrn) (by decide)
  have hmx : '\r' ∉ newMid x := by
    unfold newMid
    exact noCR_append (noCR_append hnl (not_mem_sanitize hrx hdp)) hnl
  have hmy : '\r' ∉ newMid y := by
    unfold newMid
    exact noCR_append (noCR_append hnl (not_mem_sanitize hry hdp)) hnl
  have hcr0 : replaceCRLF (a ++ startMarker name ++ m ++ endMarker name ++ b)
      = a ++ startMarker name ++ m ++ endMarker name ++ b :=
    replaceCRLF_self
      (noCR_append (noCR_append (noCR_append (noCR_append hra hrs) hrm) hre) hrb)
  have hcr1 : replaceCRLF (a ++ startMarker name ++ newMid x ++ endMarker name ++ b)
      = a ++ startMarker name ++ newMid x ++ endMarker name ++ b :=
    replaceCRLF_self
      (noCR_append (noCR_append (noCR_append (noCR_append hra hrs) hmx) hre) hrb)
  have hcr2 : replaceCRLF (a ++ startMarker name ++ newMid y ++ endMarker name ++ b)
      = a ++ startMarker name ++ newMid y ++ endMarker name ++ b :=
    replaceCRLF_self
      (noCR_append (noCR_append (noCR_append (noCR_append hra hrs) hmy) hre) hrb)
  rw [update_spliced name a m b x header hcr0 hw0,
    update_spliced name a (newMid x) b y header hcr1 hw1,
    read_spliced name a (newMid y) b hcr2 hw2,
    pystrip_newMid]

/-- Witness for `anchor_update_update_read` at a concrete document and
contents. -/
theorem anchor_update_update_read_witness :
    readFormSection
        (updateFormSection
          (updateFormSection
            ("# Doc\n\n".data ++ startMarker ("A".data) ++ "\nfoo\nbar\n".data
              ++ endMarker ("A".data) ++ "\n\ntail\n".data)
            ("A".data) ("xx".data) none)
          ("A".data) ("yy".data) none)
        ("A".data)
      = some (sanitizeContent ("yy".data) DEFAULT_PLACEHOLDER) :=
  anchor_update_update_read ("A".data) ("# Doc\n\n".data) ("\nfoo\nbar\n".data)
    ("\n\ntail\n".data) ("xx".data) ("yy".data) none (by decide) (by decide) (by decide)
    (by decide) (by decide) (by decide) (by decide) (by decide) (by decide)

/-- C8 (counterexample): with an empty second write, the read returns the
placeholder token rather than the written content after trimming, so the
round trip as claimed fails for `y = ""`. -/
theorem anchor_update_update_read_cex :
    readFormSection
        (updateFormSection (updateFormSection cexDocA ("A".data) ("x".data) none)
          ("A".data) [] none)
        ("A".data)
      = some DEFAULT_PLACEHOLDER
      ∧ DEFAULT_PLACEHOLDER ≠ pystrip [] := by
  refine ⟨by decide, by decide⟩

/-- C2 (amended): when the model reply carries a non-`NO_CHANGE`
```` ```plan ```` block that differs from the current plan after trimming,
`revise_plan` overwrites `LIVE_EXECUTION_PLAN` with the new plan and
overwrites `WATCHER_AUDIT` with `Last revision for tool: {tool}` followed
by the audit text — the previous `WATCHER_AUDIT` content is replaced, not
preserved (`update_form_section` substitutes the whole anchored block). -/
theorem watcher_revise_overwrites (A mP C mA B tool resp p : Str)
    (hrA : '\r' ∉ A) (hrmP : '\r' ∉ mP) (hrC : '\r' ∉ C) (hrmA : '\r' ∉ mA) (hrB : '\r' ∉ B)
    (hrt : '\r' ∉ tool) (hrr : '\r' ∉ resp)
    (hplan : pystrip mP ≠ [])
    (hex : extractRevisedPlan resp = some p) (hp : p ≠ [])
    (hdiff : pystrip p ≠ pystrip mP)
    (hw0 : wellAnchored LIVE_PLAN_MARKER A mP
      (C ++ startMarker ("WATCHER_AUDIT".data) ++ mA ++ endMarker ("WATCHER_AUDIT".data) ++ B))
    (hw1 : wellAnchored ("WATCHER_AUDIT".data)
      (A ++ startMarker LIVE_PLAN_MARKER ++ newMid p ++ endMarker LIVE_PLAN_MARKER ++ C) mA B)
    (hw2 : wellAnchored LIVE_PLAN_MARKER A (newMid p)
      (C ++ startMarker ("WATCHER_AUDIT".data) ++ newMid (auditMessage tool resp)
        ++ endMarker ("WATCHER_AUDIT".data) ++ B))
    (hw3 : wellAnchored ("WATCHER_AUDIT".data)
      (A ++ startMarker LIVE_PLAN_MARKER ++ newMid p ++ endMarker LIVE_PLAN_MARKER ++ C)
      (newMid (auditMessage tool resp)) B) :
    revisePlan (watcherDoc A mP C mA B) tool resp
        = (true, watcherDoc A (newMid p) C (newMid (auditMessage tool resp)) B)
      ∧ readFormSection (watcherDoc A (newMid p) C (newMid (auditMessage tool resp)) B)
          LIVE_PLAN_MARKER = some p
      ∧ readFormSection (watcherDoc A (newMid p) C (newMid (auditMessage tool resp)) B)
          ("WATCHER_AUDIT".data) = some (pystrip (auditMessage tool resp)) := by
  have hnl : '\r' ∉ (['\n'] : Str) := by decide
  have hdp : '\r' ∉ DEFAULT_PLACEHOLDER := by decide
  have hrsLP : '\r' ∉ startMarker LIVE_PLAN_MARKER := by decide
  have hreLP : '\r' ∉ endMarker LIVE_PLAN_MARKER := by decide
  have hrsWA : '\r' ∉ startMarker ("WATCHER_AUDIT".data) := by decide
  have hreWA : '\r' ∉ endMarker ("WATCHER_AUDIT".data) := by decide
  have hrp : '\r' ∉ p := extract_no_cr hex hrr
  have hraudit : '\r' ∉ auditMessage tool resp := by
    unfold auditMessage
    exact noCR_append (noCR_append (noCR_append (by decide) hrt) (by decide)) hrr
  have hrmidp : '\r' ∉ newMid p := by
    unfold newMid
    exact noCR_append (noCR_append hnl (not_mem_sanitize hrp hdp)) hnl
  have hrmida : '\r' ∉ newMid (auditMessage tool resp) := by
    unfold newMid
    exact noCR_append (noCR_append hnl (not_mem_sanitize hraudit hdp)) hnl
  have hcr0 : replaceCRLF (A ++ startMarker LIVE_PLAN_MARKER ++ mP ++ endMarker LIVE_PLAN_MARKER
      ++ (C ++ startMarker ("WATCHER_AUDIT".data) ++ mA ++ endMarker ("WATCHER_AUDIT".data) ++ B))
      = A ++ startMarker LIVE_PLAN_MARKER ++ mP ++ endMarker LIVE_PLAN_MARKER
        ++ (C ++ startMarker ("WATCHER_AUDIT".data) ++ mA ++ endMarker ("WATCHER_AUDIT".data) ++ B) :=
    replaceCRLF_self
      (noCR_append (noCR_append (noCR_append (noCR_append hrA hrsLP) hrmP) hreLP)
        (noCR_append (noCR_append (noCR_append (noCR_append hrC hrsWA) hrmA) hreWA) hrB))
  have hcr1 : replaceCRLF ((A ++ startMarker LIVE_PLAN_MARKER ++ newMid p
      ++ endMarker LIVE_PLAN_MARKER ++ C) ++ startMarker ("WATCHER_AUDIT".data) ++ mA
      ++ endMarker ("WATCHER_AUDIT".data) ++ B)
      = (A ++ startMarker LIVE_PLAN_MARKER ++ newMid p ++ endMarker LIVE_PLAN_MARKER ++ C)
        ++ startMarker ("WATCHER_AUDIT".data) ++ mA ++ endMarker ("WATCHER_AUDIT".data) ++ B :=
    replaceCRLF_self
      (noCR_append (noCR_append (noCR_append (noCR_append
        (noCR_append (noCR_append (noCR_append (noCR_append hrA hrsLP) hrmidp) hreLP) hrC)
        hrsWA) hrmA) hreWA) hrB)
  have hcr3 : replaceCRLF ((A ++ startMarker LIVE_PLAN_MARKER ++ newMid p
      ++ endMarker LIVE_PLAN_MARKER ++ C) ++ startMarker ("WATCHER_AUDIT".data)
      ++ newMid (auditMessage tool resp) ++ endMarker ("WATCHER_AUDIT".data) ++ B)
      = (A ++ startMarker LIVE_PLAN_MARKER ++ newMid p ++ endMarker LIVE_PLAN_MARKER ++ C)
        ++ startMarker ("WATCHER_AUDIT".data) ++ newMid (auditMessage tool resp)
        ++ endMarker ("WATCHER_AUDIT".data) ++ B :=
    replaceCRLF_self
      (noCR_append (noCR_append (noCR_append (noCR_append
        (noCR_append (noCR_append (noCR_append (noCR_append hrA hrsLP) hrmidp) hreLP) hrC)
        hrsWA) hrmida) hreWA) hrB)
  have hcr2 : replaceCRLF (A ++ startMarker LIVE_PLAN_MARKER ++ newMid p
      ++ endMarker LIVE_PLAN_MARKER ++ (C ++ startMarker ("WATCHER_AUDIT".data)
      ++ newMid (auditMessage tool resp) ++ endMarker ("WATCHER_AUDIT".data) ++ B))
      = A ++ startMarker LIVE_PLAN_MARKER ++ newMid p ++ endMarker LIVE_PLAN_MARKER
        ++ (C ++ startMarker ("WATCHER_AUDIT".data) ++ newMid (auditMessage tool resp)
          ++ endMarker ("WATCHER_AUDIT".data) ++ B) :=
    replaceCRLF_self
      (noCR_append (noCR_append (noCR_append (noCR_append hrA hrsLP) hrmidp) hreLP)
        (noCR_append (noCR_append (noCR_append (noCR_append hrC hrsWA) hrmida) hreWA) hrB))
  have hps : pystrip p = p := extract_stripped hex
  have hplanRead : readLivePlan (watcherDoc A mP C mA B) = some (pystrip mP) := by
    unfold readLivePlan watcherDoc
    exact read_spliced LIVE_PLAN_MARKER A mP _ hcr0 hw0
  have hup1 : updateLivePlan (watcherDoc A mP C mA B) p = watcherDoc A (newMid p) C mA B := by
    unfold updateLivePlan watcherDoc
    exact update_spliced LIVE_PLAN_MARKER A mP _ p _ hcr0 hw0
  have hshape1 : watcherDoc A (newMid p) C mA B
      = (A ++ startMarker LIVE_PLAN_MARKER ++ newMid p ++ endMarker LIVE_PLAN_MARKER ++ C)
        ++ startMarker ("WATCHER_AUDIT".data) ++ mA ++ endMarker ("WATCHER_AUDIT".data) ++ B := by
    unfold watcherDoc
    simp [List.append_assoc]
  have hshape2 : (A ++ startMarker LIVE_PLAN_MARKER ++ newMid p ++ endMarker LIVE_PLAN_MARKER
      ++ C) ++ startMarker ("WATCHER_AUDIT".data) ++ newMid (auditMessage tool resp)
      ++ endMarker ("WATCHER_AUDIT".data) ++ B
      = watcherDoc A (newMid p) C (newMid (auditMessage tool resp)) B := by
    unfold watcherDoc
    simp [List.append_assoc]
  have hup2 : writeAuditLog (watcherDoc A (newMid p) C mA B) tool resp
      = watcherDoc A (newMid p) C (newMid (auditMessage tool resp)) B := by
    unfold writeAuditLog
    rw [hshape1, update_spliced ("WATCHER_AUDIT".data) _ mA B (auditMessage tool resp) _
      hcr1 hw1, hshape2]
  have hne : pystrip (auditMessage tool resp) ≠ [] := by
    have h1 : auditMessage tool resp
        = 'L' :: ("ast revision for tool: ".data ++ tool ++ "\n\n".data ++ resp) := rfl
    rw [h1]
    exact pystrip_nonempty_of_head _ (by decide)
  have hmain : revisePlan (watcherDoc A mP C mA B) tool resp
      = (true, watcherDoc A (newMid p) C (newMid (auditMessage tool resp)) B) := by
    simp only [revisePlan, hplanRead, Option.getD_some, pystrip_idem, hex]
    rw [if_neg hplan, if_pos ⟨hp, hdiff⟩, hup1, hup2]
  refine ⟨hmain, ?_, ?_⟩
  · show readFormSection (A ++ startMarker LIVE_PLAN_MARKER ++ newMid p
      ++ endMarker LIVE_PLAN_MARKER ++ (C ++ startMarker ("WATCHER_AUDIT".data)
      ++ newMid (auditMessage tool resp) ++ endMarker ("WATCHER_AUDIT".data) ++ B))
      LIVE_PLAN_MARKER = some p
    rw [read_spliced LIVE_PLAN_MARKER A (newMid p) _ hcr2 hw2, pystrip_newMid]
    simp only [sanitizeContent, hps]
    rw [if_neg hp]
  · rw [← hshape2, read_spliced ("WATCHER_AUDIT".data) _ (newMid (auditMessage tool resp)) B
      hcr3 hw3, pystrip_newMid]
    simp only [sanitizeContent]
    rw [if_neg hne]

/-- Witness for `watcher_revise_overwrites` on a concrete form whose
audit anchor holds `OLDAUDIT` and a reply revising `OLD PLAN` to
`NEW PLAN`. -/
theorem watcher_revise_overwrites_witness :
    revisePlan (watcherDoc cexWatchA cexWatchMP cexWatchC cexWatchMA cexWatchB)
        ("web_search".data) cexPlanResp
      = (true, watcherDoc cexWatchA (newMid ("NEW PLAN".data)) cexWatchC
          (newMid (auditMessage ("web_search".data) cexPlanResp)) cexWatchB) :=
  (watcher_revise_overwrites cexWatchA cexWatchMP cexWatchC cexWatchMA cexWatchB
    ("web_search".data) cexPlanResp ("NEW PLAN".data) (by decide) (by decide) (by decide)
    (by decide) (by decide) (by decide) (by decide) (by decide) (by decide) (by decide)
    (by decide) (by decide) (by decide) (by decide) (by decide)).1

/-- C2 (counterexample): after a qualifying revision, the `WATCHER_AUDIT`
anchor holds exactly `Last revision for tool: {tool}` plus the audit
text, and the previous audit content `OLDAUDIT` is gone — refuting the
claim that the previous content is preserved before the appended entry. -/
theorem watcher_audit_overwrite_cex :
    (revisePlan cexWatchDoc ("web_search".data) cexPlanResp).1 = true
      ∧ readFormSection (revisePlan cexWatchDoc ("web_search".data) cexPlanResp).2
          ("WATCHER_AUDIT".data)
        = some ("Last revision for tool: web_search\n\n```plan\nNEW PLAN\n```".data)
      ∧ containsSub ("OLDAUDIT".data)
          ((readFormSection (revisePlan cexWatchDoc ("web_search".data) cexPlanResp).2
            ("WATCHER_AUDIT".data)).getD [])
        = false := by
  refine ⟨by decide, by decide, by decide⟩

/-! ## `web_search` lemmas -/

theorem doSearchLoop_success (providerRes : Str → ToolResultL) (minResults : Nat) :
    ∀ (qs : List Str) (idx : Nat) (attempts : List Str),
      (∀ q ∈ qs, (providerRes q).success = true) →
      (doSearchLoop providerRes minResults qs idx attempts).success = true := by
  intro qs
  induction qs with
  | nil => intro idx attempts _; rfl
  | cons q rest ih =>
    intro idx attempts h
    have hq : (providerRes q).success = true := h q (List.mem_cons_self q rest)
    simp only [doSearchLoop]
    rw [if_neg (by simp [hq])]
    split
    · rfl
    · exact ih (idx + 1) _ (fun r hr => h r (List.mem_cons_of_mem q hr))

theorem doSearchLoop_contains (providerRes : Str → ToolResultL) (minResults : Nat)
    (key : Str) :
    ∀ (qs : List Str) (idx : Nat) (attempts : List Str),
      (∀ q ∈ qs, (providerRes q).success = true) →
      (∃ a ∈ attempts, containsSub key a = true) →
      containsSub key (doSearchLoop providerRes minResults qs idx attempts).output = true := by
  intro qs
  induction qs with
  | nil =>
    intro idx attempts _ hex
    obtain ⟨a, ha, hc⟩ := hex
    exact containsSub_join ha hc
  | cons q rest ih =>
    intro idx attempts h hex
    obtain ⟨a, ha, hc⟩ := hex
    have hq : (providerRes q).success = true := h q (List.mem_cons_self q rest)
    simp only [doSearchLoop]
    rw [if_neg (by simp [hq])]
    split
    · exact containsSub_join (List.mem_append_left _ ha) hc
    · exact ih (idx + 1) _ (fun r hr => h r (List.mem_cons_of_mem q hr))
        ⟨a, List.mem_append_left _ ha, hc⟩

theorem zeroResultsMsg_contains (query : Str) :
    containsSub ("Zero Results".data) (zeroResultsMsg query) = true := by
  apply containsSub_append_left
  apply containsSub_append_left
  apply containsSub_append_left
  apply containsSub_append_left
  decide

/-- C5 (amended): whenever every attempted provider call itself succeeds,
`web_search`'s query loop returns `success=true` with the joined attempt
report; and when every query yields the zero-results diagnostic, the
output contains the literal `Zero Results`.  (When a provider is
unavailable or a provider call fails, the failing `ToolResult` — with
`success=false` — is returned instead; see the counterexample.) -/
theorem web_search_success_amended (providerRes : Str → ToolResultL) (query : Str)
    (fallbacks : List Str) (minResults : Nat)
    (hall : ∀ q ∈ query :: fallbacks, (providerRes q).success = true) :
    (doSearch providerRes query fallbacks minResults).success = true
      ∧ ((∀ q ∈ query :: fallbacks, (providerRes q).output = zeroResultsMsg q) →
          containsSub ("Zero Results".data)
            (doSearch providerRes query fallbacks minResults).output = true) := by
  constructor
  · exact doSearchLoop_success providerRes minResults (query :: fallbacks) 1 [] hall
  · intro hzero
    have hq : (providerRes query).success = true :=
      hall query (List.mem_cons_self query fallbacks)
    have hz : (providerRes query).output = zeroResultsMsg query :=
      hzero query (List.mem_cons_self query fallbacks)
    have hattempt : containsSub ("Zero Results".data)
        ("[Attempt ".data ++ natStr 1 ++ "] query: ".data ++ query ++ ['\n']
          ++ (providerRes query).output) = true := by
      rw [hz]
      exact containsSub_append_right _ (zeroResultsMsg_contains query)
    unfold doSearch
    simp only [doSearchLoop]
    rw [if_neg (by simp [hq])]
    split
    · exact containsSub_join (by simp) hattempt
    · exact doSearchLoop_contains providerRes minResults ("Zero Results".data) fallbacks 2 _
        (fun r hr => hall r (List.mem_cons_of_mem query hr))
        ⟨_, by simp, hattempt⟩

/-- Witness for `web_search_success_amended`: Tavily initialized but the
API returns empty content for the single query. -/
theorem web_search_success_witness :
    (doSearch cexZeroProvider ("q1".data) [] 1).success = true
      ∧ containsSub ("Zero Results".data) (doSearch cexZeroProvider ("q1".data) [] 1).output
          = true := by
  have h := web_search_success_amended cexZeroProvider ("q1".data) [] 1 (by decide)
  exact ⟨h.1, h.2 (by decide)⟩

/-- C5 (counterexample): with the Tavily provider unavailable (missing
`TAVILY_API_KEY`), `web_search` returns the provider failure itself —
`success=false` with a configuration error — refuting the claim that it
returns `success=true` for every invocation including provider
unavailability. -/
theorem web_search_provider_failure_cex :
    (doSearch cexDownProvider ("q1".data) [] 1).success = false
      ∧ (doSearch cexDownProvider ("q1".data) [] 1).error
          = some ("Tavily not available. Check TAVILY_API_KEY.".data) := by
  refine ⟨by decide, by decide⟩

/-! ## Strategy upgrade agent lemmas -/

theorem shouldApply_reason_ne (md : DecisionMetadata) (patch : Str) (library : Option Str)
    (counts : Char → Nat) : (shouldApplyPatch md patch library counts).reason ≠ [] := by
  simp only [shouldApplyPatch]
  by_cases h1 : ¬(md.action.getD [] = "create_new".data
      ∨ md.action.getD [] = "enhance_existing".data)
  · rw [if_pos h1]
    exact lit_append_ne_nil (by decide) _
  rw [if_neg h1]
  by_cases h2 : (assocGet md.justification ("coverage_gap".data)).getD [] = []
  · rw [if_pos h2]
    decide
  rw [if_neg h2]
  by_cases h3 : (assocGet md.justification ("reuse_failure".data)).getD [] = []
  · rw [if_pos h3]
    decide
  rw [if_neg h3]
  by_cases h4 : (assocGet md.justification ("new_value".data)).getD [] = []
  · rw [if_pos h4]
    decide
  rw [if_neg h4]
  by_cases h5 : md.referenceIds.length < MIN_REFERENCE_IDS
  · rw [if_pos h5]
    decide
  rw [if_neg h5]
  by_cases h6 : md.action.getD [] = "create_new".data
  · rw [if_pos h6]
    cases hp : parsePatchPrimaryId patch with
    | none =>
      simp only [hp]
      decide
    | some nid =>
      simp only [hp]
      by_cases h7 : (existingStrategyIds library).contains nid = true
      · rw [if_pos h7]
        exact lit_append_ne_nil (lit_append_ne_nil (by decide) _) _
      · rw [if_neg h7]
        by_cases h8 : MAX_NEW_PER_CATEGORY ≤ counts (nid.headD 'A')
        · rw [if_pos h8]
          exact lit_append_ne_nil (lit_append_ne_nil (by decide) _) _
        · rw [if_neg h8]
          exact lit_append_ne_nil (by decide) _
  · rw [if_neg h6]
    cases ht : md.targetId with
    | none =>
      simp only [ht]
      decide
    | some tid =>
      simp only [ht]
      by_cases h9 : ¬((existingStrategyIds library).contains tid = true)
      · rw [if_pos h9]
        exact lit_append_ne_nil (lit_append_ne_nil (by decide) _) _
      · rw [if_neg h9]
        exact lit_append_ne_nil (by decide) _

theorem status_applied_concat (r : Str) :
    "AUTO_APPLY_STATUS: ".data ++ "applied".data ++ (" (".data ++ r ++ [')'])
      = "AUTO_APPLY_STATUS: applied (".data ++ r ++ [')'] := by
  rw [show ("AUTO_APPLY_STATUS: applied (".data : Str)
    = "AUTO_APPLY_STATUS: ".data ++ ("applied".data ++ " (".data) from by decide]
  simp [List.append_assoc]

theorem status_skipped_concat (r : Str) :
    "AUTO_APPLY_STATUS: ".data ++ "skipped".data ++ (" (".data ++ r ++ [')'])
      = "AUTO_APPLY_STATUS: skipped (".data ++ r ++ [')'] := by
  rw [show ("AUTO_APPLY_STATUS: skipped (".data : Str)
    = "AUTO_APPLY_STATUS: ".data ++ ("skipped".data ++ " (".data) from by decide]
  simp [List.append_assoc]

/-- C3 (amended): every `evaluate_text` stage output contains the
substring `AUTO_APPLY_STATUS:`; when the model reply did not already
contain that substring (only then is the status line appended), the
output is the trimmed reply plus a status line whose value is
`applied (<reason>)` or `skipped (<reason>)` with a non-empty reason —
not bare `applied`, and not an arbitrary value. -/
theorem auto_apply_status_amended (counts : Char → Nat) (library : Option Str)
    (libraryPath resultText : Str) (patchMarkdown : Option Str) :
    containsSub AUTO_APPLY_KEY
        (evaluateTextPost counts library libraryPath resultText patchMarkdown).text = true
      ∧ (containsSub AUTO_APPLY_KEY resultText = false →
          ∃ r : Str, r ≠ [] ∧
            ((evaluateTextPost counts library libraryPath resultText patchMarkdown).text
                = rstrip resultText ++ "\n\n".data
                  ++ ("AUTO_APPLY_STATUS: applied (".data ++ r ++ [')'])
              ∨ (evaluateTextPost counts library libraryPath resultText patchMarkdown).text
                = rstrip resultText ++ "\n\n".data
                  ++ ("AUTO_APPLY_STATUS: skipped (".data ++ r ++ [')']))) := by
  have hstep : ∃ applied : Bool, ∃ r : Str, r ≠ [] ∧
      (evaluateTextPost counts library libraryPath resultText patchMarkdown).text
        = (if containsSub AUTO_APPLY_KEY resultText = true then resultText
           else rstrip resultText ++ "\n\n".data
             ++ ("AUTO_APPLY_STATUS: ".data
                ++ (if applied then "applied".data else "skipped".data)
                ++ (" (".data ++ r ++ [')']))) := by
    by_cases hd : (parseDecisionMetadata resultText).decision = some ("APPLY".data)
        ∧ (patchMarkdown.getD []) ≠ []
    · cases hok : (shouldApplyPatch (parseDecisionMetadata resultText) (patchMarkdown.getD [])
        library counts).ok
      · refine ⟨false, (shouldApplyPatch (parseDecisionMetadata resultText)
          (patchMarkdown.getD []) library counts).reason,
          shouldApply_reason_ne _ _ _ _, ?_⟩
        simp only [evaluateTextPost]
        rw [if_pos hd, hok]
        simp only [Bool.false_eq_true, if_false, Bool.if_false_left]
        rw [if_pos (shouldApply_reason_ne _ _ _ _)]
      · refine ⟨true, (shouldApplyPatch (parseDecisionMetadata resultText)
          (patchMarkdown.getD []) library counts).reason,
          shouldApply_reason_ne _ _ _ _, ?_⟩
        simp only [evaluateTextPost]
        rw [if_pos hd, hok]
        simp only [if_true]
        rw [if_pos (shouldApply_reason_ne _ _ _ _)]
    · by_cases ha : (parseDecisionMetadata resultText).decision = none
      · refine ⟨false, "missing decision header".data, by decide, ?_⟩
        simp only [evaluateTextPost]
        rw [if_neg hd, if_pos ha]
        rw [if_pos (by decide : ("missing decision header".data : Str) ≠ [])]
      · by_cases hb : (parseDecisionMetadata resultText).decision ≠ some ("APPLY".data)
        · refine ⟨false, "decision=".data ++ (parseDecisionMetadata resultText).decision.getD [],
            lit_append_ne_nil (by decide) _, ?_⟩
          simp only [evaluateTextPost]
          rw [if_neg hd, if_neg ha, if_pos hb]
          rw [if_pos (lit_append_ne_nil (by decide)
            ((parseDecisionMetadata resultText).decision.getD []))]
        · refine ⟨false, "no patch content detected".data, by decide, ?_⟩
          simp only [evaluateTextPost]
          rw [if_neg hd, if_neg ha, if_neg hb]
          rw [if_pos (by decide : ("no patch content detected".data : Str) ≠ [])]
  obtain ⟨applied, r, hr, htext⟩ := hstep
  constructor
  · by_cases hc : containsSub AUTO_APPLY_KEY resultText = true
    · rw [htext, if_pos hc]
      exact hc
    · rw [htext, if_neg hc]
      apply containsSub_append_right
      apply containsSub_append_left
      apply containsSub_append_left
      decide
  · intro hc
    refine ⟨r, hr, ?_⟩
    rw [htext, if_neg (by simp [hc])]
    cases applied
    · right
      rw [if_neg (by simp), status_skipped_concat]
    · left
      rw [if_pos rfl, status_applied_concat]

/-- Witness for `auto_apply_status_amended` at a concrete applied run. -/
theorem auto_apply_status_amended_witness :
    containsSub AUTO_APPLY_KEY
        (evaluateTextPost cexCounts (some cexLib) cexLibPath cexEnvelopeI3
          (some cexPatchI3)).text = true
      ∧ ∃ r : Str, r ≠ [] ∧
          ((evaluateTextPost cexCounts (some cexLib) cexLibPath cexEnvelopeI3
              (some cexPatchI3)).text
              = rstrip cexEnvelopeI3 ++ "\n\n".data
                ++ ("AUTO_APPLY_STATUS: applied (".data ++ r ++ [')'])
            ∨ (evaluateTextPost cexCounts (some cexLib) cexLibPath cexEnvelopeI3
                (some cexPatchI3)).text
              = rstrip cexEnvelopeI3 ++ "\n\n".data
                ++ ("AUTO_APPLY_STATUS: skipped (".data ++ r ++ [')'])) := by
  have h := auto_apply_status_amended cexCounts (some cexLib) cexLibPath cexEnvelopeI3
    (some cexPatchI3)
  exact ⟨h.1, h.2 (by decide)⟩

/-- C3 (counterexample): a model reply that already contains
`AUTO_APPLY_STATUS: banana` is returned unchanged — the line's value is
neither `applied` nor `skipped (<reason>)`; and even on a genuine applied
run the status value is `applied (accepted new strategy I3)`, not exactly
`applied`. -/
theorem auto_apply_status_value_cex :
    (evaluateTextPost cexCounts (some cexLib) cexLibPath cexBananaText none).text
        = cexBananaText
      ∧ containsSub ("AUTO_APPLY_STATUS: applied".data) cexBananaText = false
      ∧ containsSub ("AUTO_APPLY_STATUS: skipped".data) cexBananaText = false
      ∧ (evaluateTextPost cexCounts (some cexLib) cexLibPath cexEnvelopeI3
          (some cexPatchI3)).text
        = rstrip cexEnvelopeI3 ++ "\n\n".data
          ++ "AUTO_APPLY_STATUS: applied (accepted new strategy I3)".data := by
  refine ⟨by decide, by decide, by decide, by decide⟩

/-- C4: an APPLY/create_new strategy patch (well-formed: all three
justifications present, enough reference ids) whose body's primary id
already exists in the strategy library is rejected — the library is
unchanged, `last_patch_markdown` and `last_applied_path` are set to null,
and the stage output is annotated
`AUTO_APPLY_STATUS: skipped (strategy id <ID> already exists)`. -/
theorem strategy_patch_existing_id_rejected (counts : Char → Nat) (library : Option Str)
    (libraryPath resultText patch nid : Str)
    (hd : (parseDecisionMetadata resultText).decision = some ("APPLY".data))
    (hact : (parseDecisionMetadata resultText).action = some ("create_new".data))
    (hj1 : (assocGet (parseDecisionMetadata resultText).justification
      ("coverage_gap".data)).getD [] ≠ [])
    (hj2 : (assocGet (parseDecisionMetadata resultText).justification
      ("reuse_failure".data)).getD [] ≠ [])
    (hj3 : (assocGet (parseDecisionMetadata resultText).justification
      ("new_value".data)).getD [] ≠ [])
    (hrefs : MIN_REFERENCE_IDS ≤ (parseDecisionMetadata resultText).referenceIds.length)
    (hpid : parsePatchPrimaryId patch = some nid)
    (hexi : (existingStrategyIds library).contains nid = true)
    (hpne : patch ≠ [])
    (hkey : containsSub AUTO_APPLY_KEY resultText = false) :
    (evaluateTextPost counts library libraryPath resultText (some patch)).text
        = rstrip resultText ++ "\n\n".data
          ++ ("AUTO_APPLY_STATUS: skipped (strategy id ".data ++ nid
            ++ " already exists)".data)
      ∧ (evaluateTextPost counts library libraryPath resultText (some patch)).library = library
      ∧ (evaluateTextPost counts library libraryPath resultText (some patch)).lastPatch = none
      ∧ (evaluateTextPost counts library libraryPath resultText (some patch)).lastApplied = none
      ∧ (evaluateTextPost counts library libraryPath resultText (some patch)).applied = false := by
  have hsa : shouldApplyPatch (parseDecisionMetadata resultText) patch library counts
      = ⟨false, "strategy id ".data ++ nid ++ " already exists".data, none⟩ := by
    simp only [shouldApplyPatch]
    rw [if_neg (by simp [hact])]
    rw [if_neg hj1, if_neg hj2, if_neg hj3]
    rw [if_neg (by omega : ¬((parseDecisionMetadata resultText).referenceIds.length
      < MIN_REFERENCE_IDS))]
    rw [if_pos (by simp [hact])]
    simp only [hpid]
    rw [if_pos hexi]
  have hrne : ("strategy id ".data ++ nid ++ " already exists".data : Str) ≠ [] :=
    lit_append_ne_nil (lit_append_ne_nil (by decide) _) _
  have hE : evaluateTextPost counts library libraryPath resultText (some patch)
      = ⟨rstrip resultText ++ "\n\n".data
          ++ ("AUTO_APPLY_STATUS: ".data ++ "skipped".data
            ++ (" (".data ++ ("strategy id ".data ++ nid ++ " already exists".data) ++ [')'])),
        none, none, library, counts, false⟩ := by
    have hcond : (parseDecisionMetadata resultText).decision = some ("APPLY".data)
        ∧ patch ≠ [] := ⟨hd, hpne⟩
    simp only [evaluateTextPost, Option.getD_some]
    rw [if_pos hcond, hsa]
    simp [hrne, hkey]
  rw [hE]
  refine ⟨?_, rfl, rfl, rfl, rfl⟩
  show rstrip resultText ++ "\n\n".data
      ++ ("AUTO_APPLY_STATUS: ".data ++ "skipped".data
        ++ (" (".data ++ ("strategy id ".data ++ nid ++ " already exists".data) ++ [')']))
    = rstrip resultText ++ "\n\n".data
      ++ ("AUTO_APPLY_STATUS: skipped (strategy id ".data ++ nid ++ " already exists)".data)
  rw [show ("AUTO_APPLY_STATUS: skipped (strategy id ".data : Str)
      = "AUTO_APPLY_STATUS: ".data ++ ("skipped".data ++ (" (".data ++ "strategy id ".data))
      from by decide,
    show (" already exists)".data : Str) = " already exists".data ++ [')'] from by decide]
  simp [List.append_assoc]

/-- Witness for `strategy_patch_existing_id_rejected` at the concrete
envelope whose body re-uses the existing id `I2`. -/
theorem strategy_patch_existing_id_rejected_witness :
    (evaluateTextPost cexCounts (some cexLib) cexLibPath cexEnvelopeI2 (some cexPatchI2)).text
        = rstrip cexEnvelopeI2 ++ "\n\n".data
          ++ ("AUTO_APPLY_STATUS: skipped (strategy id ".data ++ "I2".data
            ++ " already exists)".data)
      ∧ (evaluateTextPost cexCounts (some cexLib) cexLibPath cexEnvelopeI2
          (some cexPatchI2)).library = some cexLib
      ∧ (evaluateTextPost cexCounts (some cexLib) cexLibPath cexEnvelopeI2
          (some cexPatchI2)).lastPatch = none
      ∧ (evaluateTextPost cexCounts (some cexLib) cexLibPath cexEnvelopeI2
          (some cexPatchI2)).lastApplied = none
      ∧ (evaluateTextPost cexCounts (some cexLib) cexLibPath cexEnvelopeI2
          (some cexPatchI2)).applied = false :=
  strategy_patch_existing_id_rejected cexCounts (some cexLib) cexLibPath cexEnvelopeI2
    cexPatchI2 ("I2".data) (by decide) (by decide) (by decide) (by decide) (by decide)
    (by decide) (by decide) (by decide) (by decide) (by decide)
